import Mathlib

/-!
# Verification of the `reproduce-mr` TDX measurement pipeline

A shallow embedding, in Lean 4, of the measurement-reproduction engine of the
`reproduce-mr` Go program (`internal/mr.go`, `internal/acpi.go`, `main.go`).
Byte buffers are `List Nat` (each entry a byte value), machine integers are
`Nat` with explicit reduction modulo `2^32` / `2^64` where the Go code uses
`uint32` / `uint64` arithmetic, and fallible code returns `Except`/`Option`,
with a dedicated constructor for Go run-time panics where the source can
crash.  All definitions are executable.
-/

set_option maxRecDepth 100000

namespace ReproduceMr

/-! ## Byte-level primitives

Little-endian packing and unpacking as performed by Go's
`encoding/binary.LittleEndian` helpers, plus big-endian word packing used
internally by the SHA-2 implementations. -/

/-- The 2-byte little-endian encoding of `v % 2^16`. -/
def le16Bytes (v : Nat) : List Nat :=
  [v % 256, v / 256 % 256]

/-- The 4-byte little-endian encoding of `v % 2^32`. -/
def le32Bytes (v : Nat) : List Nat :=
  [v % 256, v / 256 % 256, v / 65536 % 256, v / 16777216 % 256]

/-- The 8-byte little-endian encoding of `v % 2^64`
(`binary.LittleEndian.PutUint64`). -/
def le64Bytes (v : Nat) : List Nat :=
  [v % 256, v / 2 ^ 8 % 256, v / 2 ^ 16 % 256, v / 2 ^ 24 % 256,
   v / 2 ^ 32 % 256, v / 2 ^ 40 % 256, v / 2 ^ 48 % 256, v / 2 ^ 56 % 256]

/-- Read a byte at index `i`, 0 when out of range.  Inside the program all
reads are guarded so that the index is in range, where this agrees with Go
slice indexing. -/
def byteAt (l : List Nat) (i : Nat) : Nat := l.getD i 0

/-- `binary.LittleEndian.Uint16` at offset `off`. -/
def readU16le (l : List Nat) (off : Nat) : Nat :=
  byteAt l off + 256 * byteAt l (off + 1)

/-- `binary.LittleEndian.Uint32` at offset `off`. -/
def readU32le (l : List Nat) (off : Nat) : Nat :=
  byteAt l off + 256 * byteAt l (off + 1) + 65536 * byteAt l (off + 2) +
    16777216 * byteAt l (off + 3)

/-- `binary.LittleEndian.Uint64` at offset `off`. -/
def readU64le (l : List Nat) (off : Nat) : Nat :=
  byteAt l off + 2 ^ 8 * byteAt l (off + 1) + 2 ^ 16 * byteAt l (off + 2) +
    2 ^ 24 * byteAt l (off + 3) + 2 ^ 32 * byteAt l (off + 4) +
    2 ^ 40 * byteAt l (off + 5) + 2 ^ 48 * byteAt l (off + 6) +
    2 ^ 56 * byteAt l (off + 7)

/-- `binary.LittleEndian.PutUint16` at offset `off` (in-range in all uses). -/
def writeU16le (l : List Nat) (off v : Nat) : List Nat :=
  ((l.set off (v % 256)).set (off + 1) (v / 256 % 256))

/-- `binary.LittleEndian.PutUint32` at offset `off` (in-range in all uses). -/
def writeU32le (l : List Nat) (off v : Nat) : List Nat :=
  ((((l.set off (v % 256)).set (off + 1) (v / 256 % 256)).set
      (off + 2) (v / 65536 % 256)).set (off + 3) (v / 16777216 % 256))

/-- Go `uint64` subtraction: `(a - b) mod 2^64` for `a b < 2^64`. -/
def sub64 (a b : Nat) : Nat := (a + 2 ^ 64 - b) % 2 ^ 64

/-- Go `uint32` subtraction: `(a - b) mod 2^32` for `a b < 2^32`. -/
def sub32 (a b : Nat) : Nat := (a + 2 ^ 32 - b) % 2 ^ 32

/-! ## SHA-2 (Go `crypto/sha512.Sum384` / `crypto/sha256`)

The hash primitives are external library code for the Go program; they are
implemented here in full from FIPS 180-4 so that every definition in this
file is executable.  The round constants and initial states are the
fractional parts of the square and cube roots of the first primes, computed
rather than transcribed. -/

/-- Integer cube root by binary search (`go n lo hi fuel`, invariant
`lo^3 ≤ n < hi^3`). -/
def icbrtGo (n : Nat) : Nat → Nat → Nat → Nat
  | lo, _, 0 => lo
  | lo, hi, fuel + 1 =>
    if hi ≤ lo + 1 then lo
    else
      let mid := (lo + hi) / 2
      if mid ^ 3 ≤ n then icbrtGo n mid hi fuel else icbrtGo n lo mid fuel

/-- Integer cube root `⌊n^(1/3)⌋`. -/
def icbrt (n : Nat) : Nat := icbrtGo n 0 (n + 1) 512

/-- The first eighty primes, indexing the SHA-2 constants. -/
def sha2Primes : List Nat :=
  [2, 3, 5, 7, 11, 13, 17, 19, 23, 29, 31, 37, 41, 43, 47, 53, 59, 61, 67,
   71, 73, 79, 83, 89, 97, 101, 103, 107, 109, 113, 127, 131, 137, 139, 149,
   151, 157, 163, 167, 173, 179, 181, 191, 193, 197, 199, 211, 223, 227, 229,
   233, 239, 241, 251, 257, 263, 269, 271, 277, 281, 283, 293, 307, 311, 313,
   317, 331, 337, 347, 349, 353, 359, 367, 373, 379, 383, 389, 397, 401, 409]

/-- SHA-512 family round constants: first 64 bits of the fractional parts of
the cube roots of the first eighty primes. -/
def k512 : List Nat := sha2Primes.map fun p => icbrt (p * 2 ^ 192) % 2 ^ 64

/-- SHA-256 round constants: first 32 bits of the fractional parts of the
cube roots of the first sixty-four primes. -/
def k256 : List Nat := (sha2Primes.take 64).map fun p => icbrt (p * 2 ^ 96) % 2 ^ 32

/-- SHA-384 initial state: fractional parts of the square roots of the ninth
through sixteenth primes. -/
def h384init : List Nat :=
  ((sha2Primes.drop 8).take 8).map fun p => Nat.sqrt (p * 2 ^ 128) % 2 ^ 64

/-- SHA-256 initial state: fractional parts of the square roots of the first
eight primes. -/
def h256init : List Nat :=
  (sha2Primes.take 8).map fun p => Nat.sqrt (p * 2 ^ 64) % 2 ^ 32

/-- Rotate a `w`-bit word right by `n` (for `x < 2^w`, `n ≤ w`). -/
def rotr (w n x : Nat) : Nat := x / 2 ^ n + x % 2 ^ n * 2 ^ (w - n)

/-- Split a list into chunks of `n` elements (`n ≥ 1`), fuelled by the list
length. -/
def chunksGo (n : Nat) : Nat → List Nat → List (List Nat)
  | 0, _ => []
  | _, [] => []
  | fuel + 1, l => l.take n :: chunksGo n fuel (l.drop n)

/-- Split a list into chunks of `n` elements (`n ≥ 1`). -/
def chunksOf (n : Nat) (l : List Nat) : List (List Nat) := chunksGo n l.length l

/-- Big-endian base-256 digits, most significant first, of `v` in `n` bytes. -/
def beBytes : Nat → Nat → List Nat
  | 0, _ => []
  | n + 1, v => v / 256 ^ n % 256 :: beBytes n v

/-- Interpret (up to) `k`-byte big-endian words from a list of bytes. -/
def beWords (k : Nat) (l : List Nat) : List Nat :=
  (chunksOf k l).map fun c => c.foldl (fun a b => a * 256 + b) 0

/-- SHA-2 message schedule extension, one step: push the next word. -/
def shaExtend (w s0amt s0amt2 s0shr s1amt s1amt2 s1shr : Nat)
    (ws : Array Nat) : Array Nat :=
  let g := fun i => ws.getD (ws.size - i) 0
  let x15 := g 15
  let x2 := g 2
  let s0 := rotr w s0amt x15 ^^^ rotr w s0amt2 x15 ^^^ x15 / 2 ^ s0shr
  let s1 := rotr w s1amt x2 ^^^ rotr w s1amt2 x2 ^^^ x2 / 2 ^ s1shr
  ws.push ((g 16 + s0 + g 7 + s1) % 2 ^ w)

/-- Iterate the schedule extension `n` times. -/
def shaExtendN (w s0amt s0amt2 s0shr s1amt s1amt2 s1shr : Nat) :
    Nat → Array Nat → Array Nat
  | 0, ws => ws
  | n + 1, ws =>
    shaExtendN w s0amt s0amt2 s0shr s1amt s1amt2 s1shr n
      (shaExtend w s0amt s0amt2 s0shr s1amt s1amt2 s1shr ws)

/-- One SHA-2 compression round on state `(a,b,c,d,e,f,g,h)` with round key
`k` and schedule word `x`, word size `w`, big-sigma rotation amounts. -/
def shaRound (w b0 b1 b2 e0 e1 e2 : Nat) (st : List Nat) (kx : Nat × Nat) :
    List Nat :=
  match st with
  | [a, b, c, d, e, f, g, h] =>
    let m := 2 ^ w - 1
    let bigS1 := rotr w e0 e ^^^ rotr w e1 e ^^^ rotr w e2 e
    let ch := (e &&& f) ^^^ ((e ^^^ m) &&& g)
    let t1 := (h + bigS1 + ch + kx.1 + kx.2) % 2 ^ w
    let bigS0 := rotr w b0 a ^^^ rotr w b1 a ^^^ rotr w b2 a
    let maj := (a &&& b) ^^^ (a &&& c) ^^^ (b &&& c)
    let t2 := (bigS0 + maj) % 2 ^ w
    [(t1 + t2) % 2 ^ w, a, b, c, (d + t1) % 2 ^ w, e, f, g]
  | other => other

/-- Process one message block: extend the schedule, run the rounds, add the
result into the chaining state. -/
def shaBlock (w rounds b0 b1 b2 e0 e1 e2 s0a s0b s0s s1a s1b s1s : Nat)
    (ks : List Nat) (h : List Nat) (block : List Nat) : List Nat :=
  let ws0 := (beWords (w / 8) block).toArray
  let ws := shaExtendN w s0a s0b s0s s1a s1b s1s (rounds - 16) ws0
  let fin := (ks.zip ws.toList).foldl (shaRound w b0 b1 b2 e0 e1 e2) h
  (h.zip fin).map fun p => (p.1 + p.2) % 2 ^ w

/-- FIPS 180-4 padding: append `0x80`, zeros, and the `lenBytes`-byte
big-endian bit length, to a multiple of `blockLen`. -/
def shaPad (blockLen lenBytes : Nat) (msg : List Nat) : List Nat :=
  let l := msg.length
  let k := (blockLen - (l + 1 + lenBytes) % blockLen) % blockLen
  msg ++ 0x80 :: List.replicate k 0 ++ beBytes lenBytes (l * 8)

/-- SHA-384 digest (48 bytes) of a byte list, as Go `sha512.Sum384`. -/
def sha384 (msg : List Nat) : List Nat :=
  let blocks := chunksOf 128 (shaPad 128 16 msg)
  let hfin := blocks.foldl (shaBlock 64 80 28 34 39 14 18 41 1 8 7 19 61 6 k512) h384init
  (hfin.take 6).flatMap (beBytes 8)

/-- SHA-256 digest (32 bytes) of a byte list, as Go `sha256.Sum256`. -/
def sha256 (msg : List Nat) : List Nat :=
  let blocks := chunksOf 64 (shaPad 64 8 msg)
  let hfin := blocks.foldl (shaBlock 32 64 2 13 22 6 11 25 7 18 3 17 19 10 k256) h256init
  hfin.flatMap (beBytes 4)

/-- `measureSha384` from `mr.go`: the SHA-384 of a blob. -/
def measureSha384 (data : List Nat) : List Nat := sha384 data

/-! ## Hex codec (Go `encoding/hex`) -/

/-- Value of a hexadecimal digit character, or `none` (Go `fromHexChar`). -/
def hexDigitVal (c : Char) : Option Nat :=
  if '0' ≤ c ∧ c ≤ '9' then some (c.toNat - '0'.toNat)
  else if 'a' ≤ c ∧ c ≤ 'f' then some (c.toNat - 'a'.toNat + 10)
  else if 'A' ≤ c ∧ c ≤ 'F' then some (c.toNat - 'A'.toNat + 10)
  else none

/-- Decode a hex character list into bytes; `none` on an odd length or a
non-hex character, as Go `hex.DecodeString` errors. -/
def hexDecodeChars : List Char → Option (List Nat)
  | [] => some []
  | [_] => none
  | c1 :: c2 :: rest =>
    match hexDigitVal c1, hexDigitVal c2, hexDecodeChars rest with
    | some hi, some lo, some tl => some ((hi * 16 + lo) :: tl)
    | _, _, _ => none

/-- Go `hex.DecodeString`, with `none` for the error case. -/
def hexDecode (s : String) : Option (List Nat) := hexDecodeChars s.data

/-- An independent validity predicate for hex strings: even length and all
characters hexadecimal digits. -/
def isValidHexStr (s : String) : Bool :=
  s.data.length % 2 = 0 && s.data.all fun c => (hexDigitVal c).isSome

/-- Lower-case hex digit character for `n < 16`. -/
def hexDigitChar (n : Nat) : Char :=
  if n < 10 then Char.ofNat (48 + n) else Char.ofNat (87 + n)

/-- Go `hex.EncodeToString` (lower case). -/
def hexEncode (bs : List Nat) : String :=
  String.mk (bs.flatMap fun b => [hexDigitChar (b / 16 % 16), hexDigitChar (b % 16)])

/-- `mustDecodeHex` from `mr.go` (its panic case is never reached on the
constant strings it is applied to; modelled as the empty list). -/
def mustDecodeHex (s : String) : List Nat := (hexDecode s).getD []

/-- Split a character list on `-` (Go `strings.Split(s, "-")` on the GUID
strings this program uses). -/
def splitDash (cur : List Char) : List Char → List (List Char)
  | [] => [cur.reverse]
  | c :: rest => if c = '-' then cur.reverse :: splitDash [] rest else splitDash (c :: cur) rest

/-- `encodeGUID` from `mr.go`: split the canonical GUID on `-`, hex-decode
each atom, byte-reverse the first three (little-endian) and keep the last
two big-endian.  The source panics on a malformed atom; that case (never
reached on the program's constant GUIDs) is modelled as the empty list. -/
def encodeGUID (guid : String) : List Nat :=
  (splitDash [] guid.data).enum.flatMap fun p =>
    match hexDecodeChars p.2 with
    | none => []
    | some raw => if p.1 ≤ 2 then raw.reverse else raw

/-- ASCII bytes of a string (all strings so encoded in the program are
ASCII). -/
def asciiBytes (s : String) : List Nat := s.data.map Char.toNat

/-- UTF-16LE bytes of a string of basic-plane characters (all names and
command lines measured by the program are ASCII). -/
def utf16leBytes (s : String) : List Nat :=
  s.data.flatMap fun c => [c.toNat % 256, c.toNat / 256 % 256]

/-! ## TDVF metadata (`mr.go`) -/

def attributeMrExtend : Nat := 1
def attributePageAug : Nat := 2
def pageSize : Nat := 0x1000
def mrExtendGranularity : Nat := 0x100
def tdvfSectionTdHob : Nat := 0x02

/-- A TDVF metadata section record (`tdvfSection` in `mr.go`). -/
structure tdvfSection where
  dataOffset : Nat
  rawDataSize : Nat
  memoryAddress : Nat
  memoryDataSize : Nat
  secType : Nat
  attributes : Nat
deriving DecidableEq, Repr

/-- Parsed TDVF metadata (`tdvfMetadata` in `mr.go`). -/
structure tdvfMetadata where
  sections : List tdvfSection
deriving DecidableEq, Repr

def tableFooterGUID : String := "96b582de-1fb2-45f7-baea-a366c55a082d"
def tdxMetadataOffsetGUID : String := "e47a6535-984a-4798-865e-4685a7bf8ec2"

/-- Go slice expression `l[lo:hi]`; `none` models the run-time panic on
out-of-range bounds (including negative ones). -/
def goSlice (l : List Nat) (lo hi : Int) : Option (List Nat) :=
  if 0 ≤ lo ∧ lo ≤ hi ∧ hi ≤ (l.length : Int) then
    some ((l.drop lo.toNat).take (hi - lo).toNat)
  else none

/-- Outcome of the GUID-entry walk in `parseTdvfMetadata`.  `diverge` models
the infinite loop the Go source enters when an entry has length zero. -/
inductive EntryResult where
  | panic : EntryResult
  | diverge : EntryResult
  | err : String → EntryResult
  | found : List Nat → EntryResult
deriving DecidableEq, Repr

/-- The backwards walk over the OVMF GUIDed entry list, looking for the TDX
metadata offset GUID (the `for` loop of `parseTdvfMetadata`).  Fuelled; the
fuel only runs out when an `entryLen = 0` entry makes the Go loop spin. -/
def findTdxMeta (tables gid : List Nat) : Nat → Nat → EntryResult
  | _, 0 => .diverge
  | offset, fuel + 1 =>
    if offset < 18 then .err "missing TDVF metadata in firmware"
    else
      let guid := (tables.drop (offset - 16)).take 16
      let entryLen := readU16le tables (offset - 18)
      if offset < 18 + entryLen then
        .err ("malformed OVMF table in firmware at offset " ++ toString offset)
      else if guid = gid then .found ((tables.drop (offset - 18 - entryLen)).take entryLen)
      else findTdxMeta tables gid (offset - entryLen) fuel

/-- Outcome of parsing the section table. -/
inductive SectionsResult where
  | panic : SectionsResult
  | err : String → SectionsResult
  | ok : List tdvfSection → SectionsResult
deriving DecidableEq, Repr

/-- Parse and sanity-check the `count` remaining 32-byte section records
starting at index `i` (the section loop of `parseTdvfMetadata`). -/
def parseSections (fw : List Nat) (base : Nat) : Nat → Nat → SectionsResult
  | _, 0 => .ok []
  | i, count + 1 =>
    let secOffset := base + 16 + 32 * i
    match goSlice fw secOffset (secOffset + 32) with
    | none => .panic
    | some secData =>
      let s : tdvfSection :=
        { dataOffset := readU32le secData 0
          rawDataSize := readU32le secData 4
          memoryAddress := readU64le secData 8
          memoryDataSize := readU64le secData 16
          secType := readU32le secData 24
          attributes := readU32le secData 28 }
      if s.memoryAddress % pageSize ≠ 0 then
        .err ("TDVF metadata section " ++ toString i ++ " has non-aligned memory address")
      else if s.memoryDataSize < s.rawDataSize then
        .err ("TDVF metadata section " ++ toString i ++ " memory data size is less than raw data size")
      else if s.memoryDataSize % pageSize ≠ 0 then
        .err ("TDVF metadata section " ++ toString i ++ " has non-aligned memory data size")
      else if s.attributes &&& attributeMrExtend ≠ 0 ∧ s.rawDataSize < s.memoryDataSize then
        .err ("TDVF metadata section " ++ toString i ++ " raw data size is less than memory data size")
      else
        match parseSections fw base (i + 1) count with
        | .panic => .panic
        | .err e => .err e
        | .ok rest => .ok (s :: rest)

/-- Outcome of `parseTdvfMetadata`: a Go run-time panic, divergence, an
error return, or parsed metadata. -/
inductive ParseOutcome where
  | panic : ParseOutcome
  | diverge : ParseOutcome
  | err : String → ParseOutcome
  | ok : tdvfMetadata → ParseOutcome
deriving DecidableEq, Repr

/-- `parseTdvfMetadata` from `mr.go`, byte for byte: footer GUID and length
at 32 bytes from the end, backwards GUID-entry walk, TDVF descriptor and
section table.  The Go source slices `fw[offset-16:offset]` and
`fw[offset-18:offset-16]` before any check, so inputs shorter than 50 bytes
panic rather than return an error. -/
def parseTdvfMetadata (fw : List Nat) : ParseOutcome :=
  let n : Int := fw.length
  let offset : Int := n - 32
  match goSlice fw (offset - 16) offset, goSlice fw (offset - 16 - 2) (offset - 16) with
  | some guid, some lenBytes =>
    let tablesLen : Int := readU16le lenBytes 0
    if guid ≠ encodeGUID tableFooterGUID then .err "malformed OVMF table footer"
    else if tablesLen = 0 ∨ tablesLen > offset - 16 - 2 then .err "malformed OVMF table footer"
    else
      match goSlice fw (offset - 16 - 2 - tablesLen) (offset - 16 - 2) with
      | none => .panic
      | some tables =>
        match findTdxMeta tables (encodeGUID tdxMetadataOffsetGUID) tables.length
            (tables.length + 1) with
        | .panic => .panic
        | .diverge => .diverge
        | .err e => .err e
        | .found data =>
          if data.length < 4 then .panic
          else
            let fromEnd := readU32le data (data.length - 4)
            let metaOff : Int := n - fromEnd
            match goSlice fw metaOff (metaOff + 16) with
            | none => .panic
            | some desc =>
              if desc.take 4 ≠ [0x54, 0x44, 0x56, 0x46] then
                .err "malformed TDVF metadata descriptor in firmware"
              else if readU32le desc 8 ≠ 1 then
                .err "unsupported TDVF metadata descriptor version in firmware"
              else
                match parseSections fw metaOff.toNat 0 (readU32le desc 12) with
                | .panic => .panic
                | .err e => .err e
                | .ok secs => .ok ⟨secs⟩
  | _, _ => .panic

/-! ## MRTD engine (`computeMrtd` in `mr.go`)

The running SHA-384 state of the Go code is equivalent to hashing the
concatenation of everything written into it; `mrtdStream` builds that byte
stream and `computeMrtd` hashes it. -/

/-- The two known QEMU TD-initialization orders (`mrtdVariantTwoPass` /
`mrtdVariantSinglePass` in `mr.go`). -/
inductive MrtdVariant where
  | twoPass : MrtdVariant
  | singlePass : MrtdVariant
deriving DecidableEq, Repr

/-- The 128-byte `MEM.PAGE.ADD` message for one page, empty when the
`PAGE_AUG` attribute is set (the `memPageAdd` closure). -/
def memPageAddMsg (s : tdvfSection) (page : Nat) : List Nat :=
  if s.attributes &&& attributePageAug = 0 then
    [0x4D, 0x45, 0x4D, 0x2E, 0x50, 0x41, 0x47, 0x45, 0x2E, 0x41, 0x44, 0x44] ++
      [0, 0, 0, 0] ++ le64Bytes ((s.memoryAddress + page * pageSize) % 2 ^ 64) ++
      List.replicate 104 0
  else []

/-- The `MR.EXTEND` messages for one page: sixteen 128-byte headers each
followed by the 256 firmware bytes of the chunk, empty when the `MR_EXTEND`
attribute is clear (the `mrExtend` closure).  The Go source slices
`fw[chunkOffset : chunkOffset+256]` unguarded; all uses in this file keep
the chunk in range, where `drop`/`take` agrees with it. -/
def mrExtendMsgs (fw : List Nat) (s : tdvfSection) (page : Nat) : List Nat :=
  if s.attributes &&& attributeMrExtend ≠ 0 then
    (List.range (pageSize / mrExtendGranularity)).flatMap fun i =>
      ([0x4D, 0x52, 0x2E, 0x45, 0x58, 0x54, 0x45, 0x4E, 0x44] ++
        List.replicate 7 0 ++
        le64Bytes ((s.memoryAddress + page * pageSize + i * mrExtendGranularity) % 2 ^ 64) ++
        List.replicate 104 0) ++
      ((fw.drop (s.dataOffset + page * pageSize + i * mrExtendGranularity)).take
        mrExtendGranularity)
  else []

/-- The byte stream fed to the running SHA-384 state by `computeMrtd`, in
the order dictated by the variant. -/
def mrtdStream (fw : List Nat) (sections : List tdvfSection) (variant : MrtdVariant) :
    List Nat :=
  sections.flatMap fun s =>
    let numPages := s.memoryDataSize / pageSize
    match variant with
    | .twoPass =>
      ((List.range numPages).flatMap (memPageAddMsg s)) ++
        ((List.range numPages).flatMap (mrExtendMsgs fw s))
    | .singlePass =>
      (List.range numPages).flatMap fun page => memPageAddMsg s page ++ mrExtendMsgs fw s page

/-- `computeMrtd` from `mr.go`: SHA-384 over the page-add / measurement
extension message stream. -/
def computeMrtd (m : tdvfMetadata) (fw : List Nat) (variant : MrtdVariant) : List Nat :=
  sha384 (mrtdStream fw m.sections variant)

/-! ## TD HOB builder (`measureTdxQemuTdHob` in `mr.go`) -/

/-- TD HOB base address discovery: the first metadata section of type
`TD_HOB` (0x02), defaulting to `0x809000`. -/
def tdHobBase (meta : Option tdvfMetadata) : Nat :=
  match meta with
  | none => 0x809000
  | some m =>
    match m.sections.find? fun s => s.secType = tdvfSectionTdHob with
    | some s => s.memoryAddress
    | none => 0x809000

/-- The 56-byte `EFI_HOB_TYPE_HANDOFF` header (`EfiEndOfHobList` still
zero). -/
def efiHandoffHeader : List Nat :=
  [0x01, 0x00, 0x38, 0x00, 0x00, 0x00, 0x00, 0x00, 0x09, 0x00, 0x00, 0x00,
   0x00, 0x00, 0x00, 0x00] ++ List.replicate 40 0

/-- One 48-byte `EFI_HOB_TYPE_RESOURCE_DESCRIPTOR` record (the
`addMemoryResourceHob` closure, record bytes only). -/
def resHob (resourceType start length : Nat) : List Nat :=
  [0x03, 0x00, 0x30, 0x00, 0x00, 0x00, 0x00, 0x00] ++ List.replicate 16 0 ++
    [resourceType % 256, 0x00, 0x00, 0x00, 0x07, 0x00, 0x00, 0x00] ++
    le64Bytes start ++ le64Bytes length

/-- The final `EfiEndOfHobList` patch: overwrite bytes 48..56 with the
little-endian value `v`. -/
def overwriteEnd (raw : List Nat) (v : Nat) : List Nat :=
  raw.take 48 ++ le64Bytes v ++ raw.drop 56

/-- The TD HOB byte buffer built by `measureTdxQemuTdHob`: handoff header,
seven fixed resource records, the 2816 MiB split, and the end-of-list
pointer patch.  `remainingMemory` is a `uint64` accountant decremented (with
wrap-around) by every record length. -/
def buildTdHob (memorySize : Nat) (meta : Option tdvfMetadata) : List Nat :=
  let base := tdHobBase meta
  let rem0 := memorySize * 1048576 % 2 ^ 64
  let rem7 := sub64 (sub64 (sub64 (sub64 (sub64 (sub64 (sub64 rem0 0x800000) 0x6000)
      0x3000) 0x2000) 0x2000) 0x4000) 0xf000
  let recs :=
    resHob 0x07 0x0 0x800000 ++ resHob 0x00 0x800000 0x6000 ++
    resHob 0x07 0x806000 0x3000 ++ resHob 0x00 0x809000 0x2000 ++
    resHob 0x00 0x80B000 0x2000 ++ resHob 0x07 0x80D000 0x4000 ++
    resHob 0x00 0x811000 0xf000 ++
    (if 2816 ≤ memorySize then
      resHob 0x07 0x820000 0x7F7E0000 ++
        resHob 0x07 0x100000000 (sub64 rem7 0x7F7E0000)
    else
      resHob 0x07 0x820000 rem7)
  let raw := efiHandoffHeader ++ recs
  overwriteEnd raw ((base + raw.length + 8) % 2 ^ 64)

/-- `measureTdxQemuTdHob` from `mr.go`: the SHA-384 of the TD HOB buffer. -/
def measureTdxQemuTdHob (memorySize : Nat) (meta : Option tdvfMetadata) : List Nat :=
  sha384 (buildTdHob memorySize meta)

/-! ## RTMR event-log replayer (`measureLog` in `mr.go`) -/

/-- `measureLog` from `mr.go`: start from 48 zero bytes and, for each log
entry, replace the register with the SHA-384 of the register followed by the
entry.  (The `fmt.Printf` tracing of the source is pure output and is not
modelled.) -/
def measureLog (log : List (List Nat)) : List Nat :=
  log.foldl (fun mr entry => sha384 (mr ++ entry)) (List.replicate 48 0)

/-- The RTMR chain law as the specification states it: `H_0 = 0^48` and
`H_(i+1) = SHA384(H_i ‖ e_(i+1))`; the register value is `H_n`. -/
def rtmrChainFrom (h : List Nat) : List (List Nat) → List Nat
  | [] => h
  | e :: es => rtmrChainFrom (sha384 (h ++ e)) es

/-- The register value the specification's chain law assigns to an event
list. -/
def rtmrChainSpec (log : List (List Nat)) : List Nat :=
  rtmrChainFrom (List.replicate 48 0) log

/-- `measureTdxEfiVariable` from `mr.go`: hash the encoded vendor GUID, the
64-bit name length, a zero quadword and the UTF-16LE name. -/
def measureTdxEfiVariable (vendorGUID varName : String) : List Nat :=
  sha384 (encodeGUID vendorGUID ++ le64Bytes varName.length ++ le64Bytes 0 ++
    utf16leBytes varName)

/-- `measureTdxKernelCmdline` from `mr.go`: SHA-384 of the UTF-16LE command
line with a trailing NUL character. -/
def measureTdxKernelCmdline (cmdline : String) : List Nat :=
  sha384 (utf16leBytes cmdline ++ [0, 0])

/-- The `cfvImageHash` constant of `MeasureTdxQemu`. -/
def cfvImageHash : List Nat :=
  mustDecodeHex "344BC51C980BA621AAA00DA3ED7436F7D6E549197DFE699515DFA2C6583D95E6412AF21C097D473155875FFD561D6790"

/-- The `boot000Hash` constant of `MeasureTdxQemu`. -/
def boot000Hash : List Nat :=
  mustDecodeHex "23ADA07F5261F12F34A0BD8E46760962D6B4D576A416F1FEA1C64BC656B1D28EACF7047AE6E967C58FD2A98BFA74C298"

/-- The RTMR0 event list assembled by `MeasureTdxQemu` (`rtmr0Log` in
`mr.go`), as a function of the four component hashes it receives. -/
def rtmr0Log (tdHobHash acpiLoaderHash acpiRsdpHash acpiTablesHash : List Nat) :
    List (List Nat) :=
  [tdHobHash, cfvImageHash,
   measureTdxEfiVariable "8BE4DF61-93CA-11D2-AA0D-00E098032B8C" "SecureBoot",
   measureTdxEfiVariable "8BE4DF61-93CA-11D2-AA0D-00E098032B8C" "PK",
   measureTdxEfiVariable "8BE4DF61-93CA-11D2-AA0D-00E098032B8C" "KEK",
   measureTdxEfiVariable "D719B2CB-3D3A-4596-A3BC-DAD00E67656F" "db",
   measureTdxEfiVariable "D719B2CB-3D3A-4596-A3BC-DAD00E67656F" "dbx",
   sha384 [0x00, 0x00, 0x00, 0x00],
   acpiLoaderHash, acpiRsdpHash, acpiTablesHash,
   sha384 [0x00, 0x00],
   boot000Hash]

/-- The RTMR1 event list assembled by `MeasureTdxQemu` (`rtmr1Log` in
`mr.go`), as a function of the kernel authenticode hash. -/
def rtmr1Log (kernelAuthHash : List Nat) : List (List Nat) :=
  [kernelAuthHash,
   sha384 (asciiBytes "Calling EFI Application from Boot Option"),
   sha384 [0x00, 0x00, 0x00, 0x00],
   sha384 (asciiBytes "Exit Boot Services Invocation"),
   sha384 (asciiBytes "Exit Boot Services Returned with Success")]

/-- The RTMR2 event list assembled by `MeasureTdxQemu` (`rtmr2Log` in
`mr.go`). -/
def rtmr2Log (kernelCmdline : String) (initrdData : List Nat) : List (List Nat) :=
  [measureTdxKernelCmdline kernelCmdline, sha384 initrdData]

/-- `TdxMeasurements` from `mr.go`. -/
structure TdxMeasurements where
  MRTD : List Nat
  RTMR0 : List Nat
  RTMR1 : List Nat
  RTMR2 : List Nat
deriving DecidableEq, Repr

/-- The register assembly of `MeasureTdxQemu` given the parsed metadata and
the component hashes it combines (the ACPI hashes and the kernel
authenticode hash come from the template catalog and the vendored
authenticode library, outside the measurement core). -/
def measureTdxQemuRegs (meta : tdvfMetadata) (fw : List Nat)
    (acpiLoaderHash acpiRsdpHash acpiTablesHash kernelAuthHash : List Nat)
    (memorySize : Nat) (kernelCmdline : String) (initrdData : List Nat) :
    TdxMeasurements :=
  { MRTD := computeMrtd meta fw .singlePass
    RTMR0 := measureLog (rtmr0Log (measureTdxQemuTdHob memorySize (some meta))
      acpiLoaderHash acpiRsdpHash acpiTablesHash)
    RTMR1 := measureLog (rtmr1Log kernelAuthHash)
    RTMR2 := measureLog (rtmr2Log kernelCmdline initrdData) }

/-- `strings.TrimPrefix(s, "0x")`. -/
def trimPrefix0x (s : String) : String :=
  match s.data with
  | '0' :: 'x' :: rest => String.mk rest
  | _ => s

/-- `CalculateMrAggregated` from `mr.go`: strip an optional `0x` prefix,
hex-decode the key-provider string (the Go source panics on a decode error,
modelled as `none`), and hex-encode
`SHA256(MRTD ‖ RTMR0 ‖ RTMR1 ‖ RTMR2 ‖ keyProviderBytes)`. -/
def CalculateMrAggregated (m : TdxMeasurements) (mrKeyProvider : String) :
    Option String :=
  match hexDecode (trimPrefix0x mrKeyProvider) with
  | none => none
  | some bs =>
    some (hexEncode (sha256 (m.MRTD ++ m.RTMR0 ++ m.RTMR1 ++ m.RTMR2 ++ bs)))

/-- `CalculateMrImage` from `mr.go`. -/
def CalculateMrImage (m : TdxMeasurements) : String :=
  hexEncode (sha256 (m.MRTD ++ m.RTMR1 ++ m.RTMR2))

/-! ## Kernel image patcher (`MeasureTdxQemuKernelImageData` in `mr.go`)

The buffer-rewriting stage of `MeasureTdxQemuKernelImageData`; the function
then feeds the patched buffer to the vendored PE/authenticode library
(`authenticode.Parse(...).Hash(crypto.SHA384)`), which is outside the
measurement core.  All field offsets touched are below `0x1000`, which the
length guard keeps in range. -/

/-- The kernel header patch.  `initRdSize` and `acpiDataSize` are `uint32`
parameters, `memSize` (MiB) a `uint64` one. -/
def patchKernelData (kd : List Nat) (initRdSize memSize acpiDataSize : Nat) :
    Except String (List Nat) :=
  if kd.length < 0x1000 then .error "kernel data too short" else
  let iSz := initRdSize % 2 ^ 32
  let protocol := byteAt kd 0x206 + 256 * byteAt kd 0x207
  let realAddr := if protocol < 0x200 ∨ byteAt kd 0x211 % 2 = 0 then 0x90000
    else if protocol < 0x202 then 0x90000 else 0x10000
  let cmdlineAddr := if protocol < 0x200 ∨ byteAt kd 0x211 % 2 = 0 then 0x9a000
    else if protocol < 0x202 then 0x9a000 else 0x20000
  let kd1 := if 0x200 ≤ protocol then kd.set 0x210 0xb0 else kd
  let kd2 :=
    if 0x201 ≤ protocol then
      writeU32le (kd1.set 0x211 (byteAt kd1 0x211 ||| 0x80)) 0x224
        (cmdlineAddr - realAddr - 0x200)
    else kd1
  let kd3 :=
    if 0x202 ≤ protocol then writeU32le kd2 0x228 cmdlineAddr
    else writeU16le (writeU16le kd2 0x20 0xA33F) 0x22 (cmdlineAddr - realAddr)
  if iSz = 0 then .ok kd3 else
  if protocol < 0x200 then
    .error "linux kernel too old to load a ram disk"
  else
    let initrdMax0 :=
      if 0x20c ≤ protocol then
        if (readU16le kd3 0x236) &&& 0x40 ≠ 0 then 0xffffffff else 0x37ffffff
      else if 0x203 ≤ protocol then
        let m := readU32le kd3 0x22c
        if m = 0 then 0x37ffffff else m
      else 0x37ffffff
    let memSizeBytes := memSize * 1048576 % 2 ^ 64
    let lowmem := if memSizeBytes < 0xb0000000 then 0xb0000000 else 0x80000000
    let below4g := if lowmem ≤ memSizeBytes then lowmem else memSizeBytes % 2 ^ 32
    let initrdMax :=
      if sub32 below4g (acpiDataSize % 2 ^ 32) ≤ initrdMax0 then
        sub32 (sub32 below4g (acpiDataSize % 2 ^ 32)) 1
      else initrdMax0
    if initrdMax ≤ iSz then .error "initrd is too large"
    else
      let initrdAddr := (initrdMax - iSz) &&& 0xFFFFF000
      .ok (writeU32le (writeU32le kd3 0x218 initrdAddr) 0x21c iSz)

/-! ## ACPI table builder (`acpi.go`) -/

/-- The 56-byte zero-padded fixed string of the fw_loader records
(`appendFixedString` in `acpi.go`; strings of 56 bytes or more are emitted
unpadded and untruncated). -/
def appendFixedString (data : List Nat) (s : String) : List Nat :=
  data ++ asciiBytes s ++
    (if s.length < 56 then List.replicate (56 - s.length) 0 else [])

/-- The polymorphic fw_loader command records (`qemuLoaderCmdAllocate`,
`qemuLoaderCmdAddPtr`, `qemuLoaderCmdAddChecksum` in `acpi.go`). -/
inductive QemuLoaderCmd where
  | allocate (file : String) (alignment zone : Nat)
  | addPtr (pointerFile pointeeFile : String) (pointerOffset pointerSize : Nat)
  | addChecksum (file : String) (resultOffset start length : Nat)
deriving DecidableEq, Repr

/-- `qemuLoaderAppend` from `acpi.go`: serialize one command record after
`data` (4-byte little-endian tag, fixed strings, operands, zero padding). -/
def qemuLoaderAppend (data : List Nat) : QemuLoaderCmd → List Nat
  | .allocate file alignment zone =>
    appendFixedString (data ++ [0x01, 0x00, 0x00, 0x00]) file ++
      le32Bytes alignment ++ [zone % 256] ++ List.replicate 63 0
  | .addPtr pointerFile pointeeFile pointerOffset pointerSize =>
    appendFixedString (appendFixedString (data ++ [0x02, 0x00, 0x00, 0x00])
        pointerFile) pointeeFile ++
      le32Bytes pointerOffset ++ [pointerSize % 256] ++ List.replicate 7 0
  | .addChecksum file resultOffset start length =>
    appendFixedString (data ++ [0x03, 0x00, 0x00, 0x00]) file ++
      le32Bytes resultOffset ++ le32Bytes start ++ le32Bytes length ++
      List.replicate 56 0

/-- The seventeen fw_loader command records emitted by
`GenerateTablesQemu2`, in order, as a function of the table offsets found in
the template. -/
def buildLoader (dsdtOffset dsdtCsum dsdtLen facpOffset facpCsum facpLen
    apicOffset apicCsum apicLen mcfgOffset mcfgCsum mcfgLen
    waetOffset waetCsum waetLen rsdtOffset rsdtCsum rsdtLen : Nat) : List Nat :=
  let l0 := qemuLoaderAppend [] (.allocate "etc/acpi/rsdp" 16 2)
  let l1 := qemuLoaderAppend l0 (.allocate "etc/acpi/tables" 64 1)
  let l2 := qemuLoaderAppend l1 (.addChecksum "etc/acpi/tables" dsdtCsum dsdtOffset dsdtLen)
  let l3 := qemuLoaderAppend l2 (.addPtr "etc/acpi/tables" "etc/acpi/tables" (facpOffset + 36) 4)
  let l4 := qemuLoaderAppend l3 (.addPtr "etc/acpi/tables" "etc/acpi/tables" (facpOffset + 40) 4)
  let l5 := qemuLoaderAppend l4 (.addPtr "etc/acpi/tables" "etc/acpi/tables" (facpOffset + 140) 8)
  let l6 := qemuLoaderAppend l5 (.addChecksum "etc/acpi/tables" facpCsum facpOffset facpLen)
  let l7 := qemuLoaderAppend l6 (.addChecksum "etc/acpi/tables" apicCsum apicOffset apicLen)
  let l8 := qemuLoaderAppend l7 (.addChecksum "etc/acpi/tables" mcfgCsum mcfgOffset mcfgLen)
  let l9 := qemuLoaderAppend l8 (.addChecksum "etc/acpi/tables" waetCsum waetOffset waetLen)
  let l10 := qemuLoaderAppend l9 (.addPtr "etc/acpi/tables" "etc/acpi/tables" (rsdtOffset + 36) 4)
  let l11 := qemuLoaderAppend l10 (.addPtr "etc/acpi/tables" "etc/acpi/tables" (rsdtOffset + 40) 4)
  let l12 := qemuLoaderAppend l11 (.addPtr "etc/acpi/tables" "etc/acpi/tables" (rsdtOffset + 44) 4)
  let l13 := qemuLoaderAppend l12 (.addPtr "etc/acpi/tables" "etc/acpi/tables" (rsdtOffset + 48) 4)
  let l14 := qemuLoaderAppend l13 (.addChecksum "etc/acpi/tables" rsdtCsum rsdtOffset rsdtLen)
  let l15 := qemuLoaderAppend l14 (.addPtr "etc/acpi/rsdp" "etc/acpi/tables" 16 4)
  qemuLoaderAppend l15 (.addChecksum "etc/acpi/rsdp" 8 0 20)

/-- The final zero padding of the loader blob in `GenerateTablesQemu2`: pad
to 4096 bytes when shorter (the source has no branch for a longer blob). -/
def padLoader (ldr : List Nat) : List Nat :=
  if ldr.length < 4096 then ldr ++ List.replicate (4096 - ldr.length) 0 else ldr

/-- The DSDT memory patch of `GenerateTablesQemu2` (`uint32` offset
arithmetic): `lengthOffset = dsdtLen - 684`, `rangeMinimumOffset =
lengthOffset - 12`, with the 2816 MiB split on the values written. -/
def acpiPatchMem (tpl : List Nat) (dsdtLen memorySize : Nat) : List Nat :=
  let lengthOffset := sub32 (dsdtLen % 2 ^ 32) 684
  let rangeMinimumOffset := sub32 lengthOffset 12
  if 2816 ≤ memorySize then
    writeU32le (writeU32le tpl rangeMinimumOffset 0x80000000) lengthOffset 0x60000000
  else
    let memSizeBytes := memorySize * 1048576 % 2 ^ 32
    writeU32le (writeU32le tpl rangeMinimumOffset memSizeBytes) lengthOffset
      (sub32 0xe0000000 memSizeBytes)

/-! ## TCB-version dispatch

Modelled from the spec: the `tcbver`-aware pipeline entry point invoked by
`main.go` (an eleven-argument `MeasureTdxQemu`) is not part of the sources
under `src/`; the `mr.go` present there hardcodes the TCB_SVN-7 behaviour
(`mrtdVariantSinglePass`, no trailing RTMR0 separator, the TCB_SVN-6
alternative left in comments).  Per the spec, `tcbver = 6` selects the
TwoPass MRTD variant and appends a trailing SHA-384(00 00 00 00) separator
event to the RTMR0 log; `tcbver = 7` selects SinglePass and omits it. -/

/-- Modelled from the spec: MRTD variant selection by TCB version. -/
def mrtdVariantForTcb (tcbver : Nat) : MrtdVariant :=
  if tcbver = 6 then .twoPass else .singlePass

/-- Modelled from the spec: the RTMR0 event list by TCB version — the base
list of `rtmr0Log`, with the trailing separator appended only for
`tcbver = 6`. -/
def rtmr0LogForTcb (tcbver : Nat) (base : List (List Nat)) : List (List Nat) :=
  if tcbver = 6 then base ++ [sha384 [0x00, 0x00, 0x00, 0x00]] else base

/-- Modelled from the spec: the MRTD produced for a TCB version. -/
def computeMrtdForTcb (m : tdvfMetadata) (fw : List Nat) (tcbver : Nat) : List Nat :=
  computeMrtd m fw (mrtdVariantForTcb tcbver)

/-! ## Concrete inputs used in counterexamples and witnesses -/

/-- A well-formed 88-byte firmware image whose TDVF metadata has zero
sections: a 16-byte TDVF descriptor (version 1, no sections) at offset 0, a
single GUIDed entry whose 4 data bytes point 88 bytes back from the end, the
2-byte table length, the footer GUID, and 32 trailing bytes. -/
def fwNoSections : List Nat :=
  [0x54, 0x44, 0x56, 0x46, 16, 0, 0, 0, 1, 0, 0, 0, 0, 0, 0, 0] ++
  ([88, 0, 0, 0] ++ [4, 0] ++
   [0x35, 0x65, 0x7a, 0xe4, 0x4a, 0x98, 0x98, 0x47, 0x86, 0x5e, 0x46, 0x85,
    0xa7, 0xbf, 0x8e, 0xc2]) ++
  [22, 0] ++
  [0xde, 0x82, 0xb5, 0x96, 0xb2, 0x1f, 0xf7, 0x45, 0xba, 0xea, 0xa3, 0x66,
   0xc5, 0x5a, 0x08, 0x2d] ++
  List.replicate 32 0

/-- A two-page section with `MR_EXTEND` set and `PAGE_AUG` clear. -/
def secTwoPages : tdvfSection :=
  { dataOffset := 0, rawDataSize := 8192, memoryAddress := 0,
    memoryDataSize := 8192, secType := 0, attributes := 1 }

/-- A concrete measurements record (all-zero registers). -/
def measW : TdxMeasurements :=
  { MRTD := List.replicate 48 0, RTMR0 := List.replicate 48 0,
    RTMR1 := List.replicate 48 0, RTMR2 := List.replicate 48 0 }

/-- A concrete 4096-byte kernel buffer (all header fields zero, so boot
protocol 0x000). -/
def kdW : List Nat := List.replicate 4096 0

/-- The patched form of `kdW` under `initRdSize = 0`, `memSize = 2048`,
`acpiDataSize = 0x28000`: protocol 0x000 takes the legacy branch, writing
0xA33F at 0x20 and `cmdlineAddr - realAddr = 0xa000` at 0x22. -/
def kdWPatched : List Nat := writeU16le (writeU16le kdW 0x20 0xA33F) 0x22 0xa000

/-- A concrete 4096-byte kernel buffer with boot protocol 0x20D and the
`XLF_CAN_BE_LOADED_ABOVE_4G` bit set in the xloadflags field at 0x236. -/
def kdC7 : List Nat :=
  (((List.replicate 4096 0).set 0x206 0x0D).set 0x207 0x02).set 0x236 0x40

/-! ## Byte-buffer lemmas -/

theorem byteAt_set_ne (l : List Nat) {i j : Nat} (v : Nat) (h : i ≠ j) :
    byteAt (l.set i v) j = byteAt l j := by
  simp [byteAt, List.getD_eq_getElem?_getD, List.getElem?_set_ne h]

theorem byteAt_set_lt (l : List Nat) {i : Nat} (v : Nat) (h : i < l.length) :
    byteAt (l.set i v) i = v := by
  simp [byteAt, List.getD_eq_getElem?_getD, List.getElem?_set_self',
    List.getElem?_eq_getElem h]

theorem set_byteAt_self (l : List Nat) (i : Nat) : l.set i (byteAt l i) = l := by
  induction l generalizing i with
  | nil => rfl
  | cons a t ih =>
    cases i with
    | zero => rfl
    | succ n =>
      have := ih n
      simp only [byteAt, List.getD_eq_getElem?_getD] at this ⊢
      simp [List.set, this]

theorem byteAt_replicate_zero (n i : Nat) : byteAt (List.replicate n 0) i = 0 := by
  induction n generalizing i with
  | zero => rfl
  | succ m ih =>
    cases i with
    | zero => rfl
    | succ j => exact ih j

theorem byteAt_append_left (l r : List Nat) {n : Nat} (h : n < l.length) :
    byteAt (l ++ r) n = byteAt l n :=
  List.getD_append l r 0 n h

theorem byteAt_append_right (l r : List Nat) {n : Nat} (h : l.length ≤ n) :
    byteAt (l ++ r) n = byteAt r (n - l.length) :=
  List.getD_append_right l r 0 n h

theorem le16Bytes_length (v : Nat) : (le16Bytes v).length = 2 := rfl

theorem le32Bytes_length (v : Nat) : (le32Bytes v).length = 4 := rfl

theorem le64Bytes_length (v : Nat) : (le64Bytes v).length = 8 := rfl

theorem writeU16le_length (l : List Nat) (off v : Nat) :
    (writeU16le l off v).length = l.length := by
  simp [writeU16le]

theorem writeU32le_length (l : List Nat) (off v : Nat) :
    (writeU32le l off v).length = l.length := by
  simp [writeU32le]

theorem byteAt_writeU16le_ne (l : List Nat) {off j : Nat} (v : Nat)
    (h : j < off ∨ off + 2 ≤ j) : byteAt (writeU16le l off v) j = byteAt l j := by
  unfold writeU16le
  rw [byteAt_set_ne _ _ (by omega), byteAt_set_ne _ _ (by omega)]

theorem byteAt_writeU32le_ne (l : List Nat) {off j : Nat} (v : Nat)
    (h : j < off ∨ off + 4 ≤ j) : byteAt (writeU32le l off v) j = byteAt l j := by
  unfold writeU32le
  rw [byteAt_set_ne _ _ (by omega), byteAt_set_ne _ _ (by omega),
    byteAt_set_ne _ _ (by omega), byteAt_set_ne _ _ (by omega)]

theorem byteAt_writeU32le_self (l : List Nat) {off : Nat} (v : Nat)
    (h : off + 4 ≤ l.length) :
    byteAt (writeU32le l off v) off = v % 256 ∧
    byteAt (writeU32le l off v) (off + 1) = v / 256 % 256 ∧
    byteAt (writeU32le l off v) (off + 2) = v / 65536 % 256 ∧
    byteAt (writeU32le l off v) (off + 3) = v / 16777216 % 256 := by
  unfold writeU32le
  refine ⟨?_, ?_, ?_, ?_⟩
  · rw [byteAt_set_ne _ _ (by omega), byteAt_set_ne _ _ (by omega),
      byteAt_set_ne _ _ (by omega), byteAt_set_lt _ _ (by omega)]
  · rw [byteAt_set_ne _ _ (by omega), byteAt_set_ne _ _ (by omega),
      byteAt_set_lt _ _ (by simp; omega)]
  · rw [byteAt_set_ne _ _ (by omega), byteAt_set_lt _ _ (by simp; omega)]
  · rw [byteAt_set_lt _ _ (by simp; omega)]

theorem readU32le_writeU32le_self (l : List Nat) {off : Nat} (v : Nat)
    (h : off + 4 ≤ l.length) :
    readU32le (writeU32le l off v) off = v % 2 ^ 32 := by
  obtain ⟨b0, b1, b2, b3⟩ := byteAt_writeU32le_self l v h
  unfold readU32le
  rw [b0, b1, b2, b3]
  omega

theorem readU32le_writeU32le_ne (l : List Nat) {off1 off2 : Nat} (v : Nat)
    (h : off1 + 4 ≤ off2 ∨ off2 + 4 ≤ off1) :
    readU32le (writeU32le l off2 v) off1 = readU32le l off1 := by
  unfold readU32le
  rw [byteAt_writeU32le_ne _ _ (by omega), byteAt_writeU32le_ne _ _ (by omega),
    byteAt_writeU32le_ne _ _ (by omega), byteAt_writeU32le_ne _ _ (by omega)]

theorem readU16le_writeU32le_ne (l : List Nat) {off1 off2 : Nat} (v : Nat)
    (h : off1 + 2 ≤ off2 ∨ off2 + 4 ≤ off1) :
    readU16le (writeU32le l off2 v) off1 = readU16le l off1 := by
  unfold readU16le
  rw [byteAt_writeU32le_ne _ _ (by omega), byteAt_writeU32le_ne _ _ (by omega)]

theorem writeU32le_byteAt_self (l : List Nat) {off : Nat} (v : Nat)
    (h0 : byteAt l off = v % 256) (h1 : byteAt l (off + 1) = v / 256 % 256)
    (h2 : byteAt l (off + 2) = v / 65536 % 256)
    (h3 : byteAt l (off + 3) = v / 16777216 % 256) :
    writeU32le l off v = l := by
  unfold writeU32le
  rw [← h0, set_byteAt_self]
  rw [← h1, set_byteAt_self]
  rw [← h2, set_byteAt_self]
  rw [← h3, set_byteAt_self]

theorem writeU16le_byteAt_self (l : List Nat) {off : Nat} (v : Nat)
    (h0 : byteAt l off = v % 256) (h1 : byteAt l (off + 1) = v / 256 % 256) :
    writeU16le l off v = l := by
  unfold writeU16le
  rw [← h0, set_byteAt_self]
  rw [← h1, set_byteAt_self]

theorem byteAt_append_at128 (A B : List Nat) (hA : A.length = 128) (i : Nat) :
    byteAt (A ++ B) (128 + i) = byteAt B i := by
  rw [byteAt_append_right A B (by omega), hA, Nat.add_sub_cancel_left]

theorem readU64le_append_le64 (pre : List Nat) (x : Nat) (suf : List Nat) :
    readU64le (pre ++ (le64Bytes x ++ suf)) pre.length = x % 2 ^ 64 := by
  unfold readU64le
  have hb : ∀ i, i < 8 → byteAt (pre ++ (le64Bytes x ++ suf)) (pre.length + i) =
      byteAt (le64Bytes x) i := by
    intro i hi
    rw [byteAt_append_right _ _ (by omega), Nat.add_sub_cancel_left,
      byteAt_append_left _ _ (by simp [le64Bytes_length]; omega)]
  have e0 := hb 0 (by omega)
  have e1 := hb 1 (by omega)
  have e2 := hb 2 (by omega)
  have e3 := hb 3 (by omega)
  have e4 := hb 4 (by omega)
  have e5 := hb 5 (by omega)
  have e6 := hb 6 (by omega)
  have e7 := hb 7 (by omega)
  simp only [Nat.add_zero] at e0
  rw [e0, e1, e2, e3, e4, e5, e6, e7]
  simp only [le64Bytes, byteAt, List.getD_cons_zero, List.getD_cons_succ]
  omega

theorem readU64le_append_le64_last (pre : List Nat) (x : Nat) :
    readU64le (pre ++ le64Bytes x) pre.length = x % 2 ^ 64 := by
  have h := readU64le_append_le64 pre x []
  simpa using h

theorem overwriteEnd_length (raw : List Nat) (v : Nat) (h : 56 ≤ raw.length) :
    (overwriteEnd raw v).length = raw.length := by
  simp [overwriteEnd, le64Bytes_length]
  omega

theorem readU64le_overwriteEnd_48 (raw : List Nat) (v : Nat) (h : 56 ≤ raw.length) :
    readU64le (overwriteEnd raw v) 48 = v % 2 ^ 64 := by
  have h48 : (raw.take 48).length = 48 := by simp; omega
  have he := readU64le_append_le64 (raw.take 48) v (raw.drop 56)
  rw [h48] at he
  rw [overwriteEnd, List.append_assoc]
  exact he

theorem byteAt_overwriteEnd_past (raw : List Nat) (v j : Nat) (h56 : 56 ≤ j)
    (hr : 56 ≤ raw.length) : byteAt (overwriteEnd raw v) j = byteAt raw j := by
  unfold overwriteEnd
  have hl : (raw.take 48 ++ le64Bytes v).length = 56 := by
    simp [le64Bytes_length]; omega
  rw [byteAt_append_right _ _ (by omega), hl]
  unfold byteAt
  rw [List.getD_eq_getElem?_getD, List.getD_eq_getElem?_getD, List.getElem?_drop]
  have hj : 56 + (j - 56) = j := by omega
  rw [hj]

theorem readU64le_overwriteEnd_past (raw : List Nat) (v off : Nat) (h56 : 56 ≤ off)
    (hr : 56 ≤ raw.length) :
    readU64le (overwriteEnd raw v) off = readU64le raw off := by
  unfold readU64le
  rw [byteAt_overwriteEnd_past raw v off (by omega) hr,
    byteAt_overwriteEnd_past raw v _ (by omega) hr,
    byteAt_overwriteEnd_past raw v _ (by omega) hr,
    byteAt_overwriteEnd_past raw v _ (by omega) hr,
    byteAt_overwriteEnd_past raw v _ (by omega) hr,
    byteAt_overwriteEnd_past raw v _ (by omega) hr,
    byteAt_overwriteEnd_past raw v _ (by omega) hr,
    byteAt_overwriteEnd_past raw v _ (by omega) hr]

/-! ## fw_loader length lemmas -/

theorem appendFixedString_length (d : List Nat) (s : String) (h : s.length ≤ 56) :
    (appendFixedString d s).length = d.length + 56 := by
  have hd : s.length = s.data.length := rfl
  unfold appendFixedString
  by_cases hlt : s.length < 56 <;> simp [hlt, asciiBytes] <;> omega

theorem qemuLoaderAppend_allocate_length (d : List Nat) (f : String) (a z : Nat)
    (hf : f.length ≤ 56) :
    (qemuLoaderAppend d (.allocate f a z)).length = d.length + 128 := by
  simp [qemuLoaderAppend, appendFixedString_length _ _ hf, le32Bytes_length]

theorem qemuLoaderAppend_addPtr_length (d : List Nat) (f g : String) (o z : Nat)
    (hf : f.length ≤ 56) (hg : g.length ≤ 56) :
    (qemuLoaderAppend d (.addPtr f g o z)).length = d.length + 128 := by
  simp [qemuLoaderAppend, appendFixedString_length _ _ hf,
    appendFixedString_length _ _ hg, le32Bytes_length]

theorem qemuLoaderAppend_addChecksum_length (d : List Nat) (f : String) (o a b : Nat)
    (hf : f.length ≤ 56) :
    (qemuLoaderAppend d (.addChecksum f o a b)).length = d.length + 128 := by
  simp [qemuLoaderAppend, appendFixedString_length _ _ hf, le32Bytes_length]

/-! ## RTMR replayer lemmas -/

theorem foldl_eq_rtmrChainFrom (h : List Nat) (log : List (List Nat)) :
    log.foldl (fun mr e => sha384 (mr ++ e)) h = rtmrChainFrom h log := by
  induction log generalizing h with
  | nil => rfl
  | cons e es ih => simpa [List.foldl, rtmrChainFrom] using ih (sha384 (h ++ e))

/-! ## MRTD stream lemmas -/

theorem memPageAddMsg_length (s : tdvfSection) (p : Nat)
    (h : s.attributes &&& attributePageAug = 0) : (memPageAddMsg s p).length = 128 := by
  simp [memPageAddMsg, h, le64Bytes_length]

theorem byteAt_memPageAddMsg_one (s : tdvfSection) (p : Nat)
    (h : s.attributes &&& attributePageAug = 0) : byteAt (memPageAddMsg s p) 1 = 0x45 := by
  rw [memPageAddMsg, if_pos h]
  rfl

theorem byteAt_mrExtendMsgs_one (fw : List Nat) (s : tdvfSection) (p : Nat)
    (h : s.attributes &&& attributeMrExtend ≠ 0) : byteAt (mrExtendMsgs fw s p) 1 = 0x52 := by
  rw [mrExtendMsgs, if_pos h]
  rfl

theorem two_le_mrExtendMsgs_length (fw : List Nat) (s : tdvfSection) (p : Nat)
    (h : s.attributes &&& attributeMrExtend ≠ 0) : 2 ≤ (mrExtendMsgs fw s p).length := by
  rw [mrExtendMsgs, if_pos h]
  rw [show List.range (pageSize / mrExtendGranularity) =
    0 :: [1, 2, 3, 4, 5, 6, 7, 8, 9, 10, 11, 12, 13, 14, 15] from rfl]
  rw [List.flatMap_cons]
  simp only [List.length_append, List.length_cons, List.length_nil,
    List.length_replicate, le64Bytes_length]
  omega

/-- Peeling the first two pages off the TwoPass stream of a leading section:
with `PAGE_AUG` clear, the stream starts with the page-0 `MEM.PAGE.ADD`
message followed by the page-1 one. -/
theorem mrtdStream_twoPass_cons (fw : List Nat) (s : tdvfSection) (rest : List tdvfSection)
    (k : Nat) (hn : s.memoryDataSize / pageSize = k + 2) :
    mrtdStream fw (s :: rest) .twoPass =
      memPageAddMsg s 0 ++ (memPageAddMsg s 1 ++
        ((List.map Nat.succ (List.map Nat.succ (List.range k))).flatMap (memPageAddMsg s) ++
          ((List.range (k + 2)).flatMap (mrExtendMsgs fw s) ++
            rest.flatMap (fun t =>
              let numPages := t.memoryDataSize / pageSize
              ((List.range numPages).flatMap (memPageAddMsg t)) ++
                ((List.range numPages).flatMap (mrExtendMsgs fw t)))))) := by
  rw [mrtdStream, List.flatMap_cons]
  simp only [hn]
  rw [List.range_succ_eq_map, List.range_succ_eq_map]
  simp [List.flatMap_cons, List.append_assoc, mrtdStream]

/-- Peeling the first page off the SinglePass stream of a leading section:
the stream starts with the page-0 `MEM.PAGE.ADD` message followed by the
page-0 `MR.EXTEND` messages. -/
theorem mrtdStream_singlePass_cons (fw : List Nat) (s : tdvfSection) (rest : List tdvfSection)
    (k : Nat) (hn : s.memoryDataSize / pageSize = k + 2) :
    mrtdStream fw (s :: rest) .singlePass =
      memPageAddMsg s 0 ++ (mrExtendMsgs fw s 0 ++
        ((List.map Nat.succ (List.range (k + 1))).flatMap
            (fun page => memPageAddMsg s page ++ mrExtendMsgs fw s page) ++
          rest.flatMap (fun t =>
            (List.range (t.memoryDataSize / pageSize)).flatMap
              (fun page => memPageAddMsg t page ++ mrExtendMsgs fw t page)))) := by
  rw [mrtdStream, List.flatMap_cons]
  simp only [hn]
  rw [List.range_succ_eq_map]
  simp [List.flatMap_cons, List.append_assoc, mrtdStream]

/-! ## Claim theorems -/

/-- C1 (counterexample).  The claim asserts that for **every** well-formed
firmware the tcbver-6 and tcbver-7 runs produce different MRTD values.
`fwNoSections` is a firmware the parser accepts (metadata with zero
sections), and on it the TwoPass and SinglePass page orderings feed the
identical (empty) stream to SHA-384, so the two MRTD values coincide. -/
theorem claim_C1_counterexample :
    parseTdvfMetadata fwNoSections = .ok ⟨[]⟩ ∧
    computeMrtdForTcb ⟨[]⟩ fwNoSections 6 = computeMrtdForTcb ⟨[]⟩ fwNoSections 7 := by
  exact ⟨by decide, rfl⟩

/-- C1 (amended).  The TCB-version dispatch (modelled from the spec, the
tcbver-aware entry point being absent from `src/`) selects TwoPass for 6 and
SinglePass for 7, and appends the trailing SHA-384(00 00 00 00) separator to
the RTMR0 event log exactly for tcbver 6, so the two RTMR0 event logs always
differ; the MRTD input streams differ whenever a leading section has at
least two pages with `MR_EXTEND` set and `PAGE_AUG` clear (but not for every
firmware: see the counterexample). -/
theorem claim_C1_amended :
    (∀ base : List (List Nat),
      rtmr0LogForTcb 6 base = base ++ [sha384 [0x00, 0x00, 0x00, 0x00]] ∧
      rtmr0LogForTcb 7 base = base ∧
      rtmr0LogForTcb 6 base ≠ rtmr0LogForTcb 7 base) ∧
    mrtdVariantForTcb 6 = .twoPass ∧ mrtdVariantForTcb 7 = .singlePass ∧
    (∀ (fw : List Nat) (s : tdvfSection) (rest : List tdvfSection),
      s.attributes &&& attributePageAug = 0 →
      s.attributes &&& attributeMrExtend ≠ 0 →
      2 ≤ s.memoryDataSize / pageSize →
      mrtdStream fw (s :: rest) (mrtdVariantForTcb 6) ≠
        mrtdStream fw (s :: rest) (mrtdVariantForTcb 7)) := by
  refine ⟨fun base => ⟨rfl, rfl, fun hbad => ?_⟩, rfl, rfl, ?_⟩
  · have := congrArg List.length hbad
    simp [rtmr0LogForTcb] at this
  · intro fw s rest h1 h2 h3 heq
    obtain ⟨k, hk⟩ : ∃ k, s.memoryDataSize / pageSize = k + 2 :=
      ⟨s.memoryDataSize / pageSize - 2, by omega⟩
    rw [show mrtdVariantForTcb 6 = .twoPass from rfl,
      show mrtdVariantForTcb 7 = .singlePass from rfl] at heq
    have hb := congrArg (fun l => byteAt l (128 + 1)) heq
    simp only [] at hb
    rw [mrtdStream_twoPass_cons fw s rest k hk,
      mrtdStream_singlePass_cons fw s rest k hk] at hb
    rw [byteAt_append_at128 _ _ (memPageAddMsg_length s 0 h1) 1,
      byteAt_append_at128 _ _ (memPageAddMsg_length s 0 h1) 1] at hb
    rw [byteAt_append_left _ _ (by rw [memPageAddMsg_length s 1 h1]; omega),
      byteAt_memPageAddMsg_one s 1 h1] at hb
    rw [byteAt_append_left _ _
        (by have := two_le_mrExtendMsgs_length fw s 0 h2; omega),
      byteAt_mrExtendMsgs_one fw s 0 h2] at hb
    omega

/-- C1 (witness for the amended theorem): a two-page `MR_EXTEND` section
makes the TwoPass and SinglePass streams differ. -/
theorem claim_C1_witness :
    mrtdStream [] [secTwoPages] (mrtdVariantForTcb 6) ≠
      mrtdStream [] [secTwoPages] (mrtdVariantForTcb 7) :=
  claim_C1_amended.2.2.2 [] secTwoPages [] (by decide) (by decide) (by decide)

/-- C2: the RTMR replayer implements the chain law `H_0 = 0^48`,
`H_(i+1) = SHA384(H_i ‖ e_(i+1))` for every event list, and the registers
assembled by the pipeline are exactly this fold of their event lists. -/
theorem claim_C2 :
    (∀ log : List (List Nat), measureLog log = rtmrChainSpec log) ∧
    (∀ (meta : tdvfMetadata) (fw alh arh ath kah : List Nat) (ms : Nat)
        (kc : String) (ird : List Nat),
      (measureTdxQemuRegs meta fw alh arh ath kah ms kc ird).RTMR0 =
        rtmrChainSpec (rtmr0Log (measureTdxQemuTdHob ms (some meta)) alh arh ath) ∧
      (measureTdxQemuRegs meta fw alh arh ath kah ms kc ird).RTMR1 =
        rtmrChainSpec (rtmr1Log kah) ∧
      (measureTdxQemuRegs meta fw alh arh ath kah ms kc ird).RTMR2 =
        rtmrChainSpec (rtmr2Log kc ird)) := by
  have hfold : ∀ log : List (List Nat), measureLog log = rtmrChainSpec log :=
    fun log => foldl_eq_rtmrChainFrom (List.replicate 48 0) log
  refine ⟨hfold, fun meta fw alh arh ath kah ms kc ird => ⟨?_, ?_, ?_⟩⟩ <;>
    simp only [measureTdxQemuRegs] <;> exact hfold _

/-- C3: on the empty firmware the parser does **not** return the
"malformed OVMF table footer" error; the Go source slices
`fw[-48:-32]` before any check and panics. -/
theorem claim_C3 :
    parseTdvfMetadata [] = .panic ∧
    parseTdvfMetadata [] ≠ .err "malformed OVMF table footer" := by
  exact ⟨by decide, by decide⟩

/-- C4: the DSDT memory patch writes `rangeMinimum = 2815·1048576` and
`length = 0xE0000000 - 2815·1048576` for 2815 MiB, and `0x80000000` /
`0x60000000` for every memory size of at least 2816 MiB
(`rangeMinimumOffset = dsdtLen - 684 - 12`, `lengthOffset = dsdtLen - 684`). -/
theorem claim_C4 (tpl : List Nat) (dsdtLen : Nat) (h696 : 696 ≤ dsdtLen)
    (h32 : dsdtLen < 2 ^ 32) (hlen : dsdtLen - 684 + 4 ≤ tpl.length) :
    (readU32le (acpiPatchMem tpl dsdtLen 2815) (dsdtLen - 684 - 12) = 2815 * 1048576 ∧
      readU32le (acpiPatchMem tpl dsdtLen 2815) (dsdtLen - 684) =
        0xe0000000 - 2815 * 1048576) ∧
    ∀ memorySize, 2816 ≤ memorySize →
      readU32le (acpiPatchMem tpl dsdtLen memorySize) (dsdtLen - 684 - 12) = 0x80000000 ∧
      readU32le (acpiPatchMem tpl dsdtLen memorySize) (dsdtLen - 684) = 0x60000000 := by
  have hLo : sub32 (dsdtLen % 2 ^ 32) 684 = dsdtLen - 684 := by
    simp only [sub32, Nat.mod_eq_of_lt h32]
    omega
  have hRo : sub32 (dsdtLen - 684) 12 = dsdtLen - 684 - 12 := by
    simp only [sub32]
    omega
  constructor
  · have hpatch : acpiPatchMem tpl dsdtLen 2815 =
        writeU32le (writeU32le tpl (dsdtLen - 684 - 12) (2815 * 1048576 % 2 ^ 32))
          (dsdtLen - 684) (sub32 0xe0000000 (2815 * 1048576 % 2 ^ 32)) := by
      rw [acpiPatchMem, if_neg (by omega), hLo, hRo]
    rw [hpatch]
    constructor
    · rw [readU32le_writeU32le_ne _ _ (by omega),
        readU32le_writeU32le_self _ _ (by omega)]
      norm_num
    · rw [readU32le_writeU32le_self _ _ (by rw [writeU32le_length]; omega)]
      norm_num [sub32]
  · intro memorySize hm
    have hpatch : acpiPatchMem tpl dsdtLen memorySize =
        writeU32le (writeU32le tpl (dsdtLen - 684 - 12) 0x80000000)
          (dsdtLen - 684) 0x60000000 := by
      rw [acpiPatchMem, if_pos hm, hLo, hRo]
    rw [hpatch]
    constructor
    · rw [readU32le_writeU32le_ne _ _ (by omega),
        readU32le_writeU32le_self _ _ (by omega)]
      norm_num
    · rw [readU32le_writeU32le_self _ _ (by rw [writeU32le_length]; omega)]
      norm_num

/-- C4 (witness): a 700-byte template with `dsdtLen = 696` at the two
boundary memory sizes. -/
theorem claim_C4_witness :
    readU32le (acpiPatchMem (List.replicate 700 0) 696 2815) 0 = 2815 * 1048576 ∧
    readU32le (acpiPatchMem (List.replicate 700 0) 696 2816) 12 = 0x60000000 :=
  ⟨(claim_C4 (List.replicate 700 0) 696 (by decide) (by norm_num)
      (by simp)).1.1,
   ((claim_C4 (List.replicate 700 0) 696 (by decide) (by norm_num)
      (by simp)).2 2816 (by decide)).2⟩

/-- C5: the fw_loader command blob of `GenerateTablesQemu2` has natural
length exactly 2176 bytes for every combination of table offsets, is padded
to exactly 4096 bytes, and never exceeds 4096 bytes (so the overflow-failure
condition of the claim is unreachable). -/
theorem claim_C5 (a b c d e f g h i j k l m n o p q r : Nat) :
    (buildLoader a b c d e f g h i j k l m n o p q r).length = 2176 ∧
    (padLoader (buildLoader a b c d e f g h i j k l m n o p q r)).length = 4096 ∧
    (buildLoader a b c d e f g h i j k l m n o p q r).length ≤ 4096 := by
  have hr : ("etc/acpi/rsdp" : String).length ≤ 56 := by decide
  have ht : ("etc/acpi/tables" : String).length ≤ 56 := by decide
  have hnat : (buildLoader a b c d e f g h i j k l m n o p q r).length = 2176 := by
    simp only [buildLoader, qemuLoaderAppend_allocate_length _ _ _ _ hr,
      qemuLoaderAppend_allocate_length _ _ _ _ ht,
      qemuLoaderAppend_addPtr_length _ _ _ _ _ hr ht,
      qemuLoaderAppend_addPtr_length _ _ _ _ _ ht ht,
      qemuLoaderAppend_addChecksum_length _ _ _ _ _ hr,
      qemuLoaderAppend_addChecksum_length _ _ _ _ _ ht, List.length_nil]
  refine ⟨hnat, ?_, by omega⟩
  rw [padLoader, if_pos (by omega)]
  simp only [List.length_append, List.length_replicate, hnat]

theorem buildTdHob_end_ptr (raw : List Nat) (base : Nat) (h : 56 ≤ raw.length) :
    readU64le (overwriteEnd raw ((base + raw.length + 8) % 2 ^ 64)) 48 =
      (base + (overwriteEnd raw ((base + raw.length + 8) % 2 ^ 64)).length + 8) % 2 ^ 64 := by
  rw [readU64le_overwriteEnd_48 _ _ h, overwriteEnd_length _ _ h]
  exact Nat.mod_mod_of_dvd _ dvd_rfl

theorem resHob_length (r s l : Nat) : (resHob r s l).length = 48 := by
  simp [resHob, le64Bytes_length]

theorem readU64le_overwrite_last (P : List Nat) (x v n : Nat) (h56 : 56 ≤ n)
    (hP : P.length = n) :
    readU64le (overwriteEnd (P ++ le64Bytes x) v) n = x % 2 ^ 64 := by
  rw [readU64le_overwriteEnd_past _ _ _ (by omega)
      (by simp [le64Bytes_length]; omega)]
  rw [← hP]
  exact readU64le_append_le64_last P x

/-- C6: for every memory size and every metadata value (or its absence),
bytes 48..56 of the TD HOB buffer hold the little-endian value
`tdHobBaseAddr + len(hob) + 8` (reduced mod `2^64`, all fields being 64-bit). -/
theorem claim_C6 (memorySize : Nat) (meta : Option tdvfMetadata) :
    readU64le (buildTdHob memorySize meta) 48 =
      (tdHobBase meta + (buildTdHob memorySize meta).length + 8) % 2 ^ 64 := by
  have hhdr : efiHandoffHeader.length = 56 := by decide
  exact buildTdHob_end_ptr _ (tdHobBase meta)
    (by rw [List.length_append, hhdr]; omega)

/-- C10: the TD HOB builder is total (the buffer is 440 or 488 bytes, no
failure path), the length field of the final resource record is the
`uint64` wrap-around difference between the total memory bytes and the sum
of all preceding record lengths (`0x820000`, resp. `0x80000000` above the
2816 MiB split), and for any memory size below about 8 MiB the subtraction
wraps to a huge bogus value instead of an error being reported. -/
theorem claim_C10 (memorySize : Nat) (meta : Option tdvfMetadata) :
    ((buildTdHob memorySize meta).length = if 2816 ≤ memorySize then 488 else 440) ∧
    (memorySize < 2816 →
      readU64le (buildTdHob memorySize meta) 432 =
        (memorySize * 1048576 + 2 ^ 64 - 0x820000) % 2 ^ 64) ∧
    (2816 ≤ memorySize →
      readU64le (buildTdHob memorySize meta) 480 =
        (memorySize * 1048576 - 0x80000000) % 2 ^ 64) ∧
    (memorySize * 1048576 < 0x820000 →
      2 ^ 64 - 0x820000 ≤ readU64le (buildTdHob memorySize meta) 432) := by
  have hN : (2 : Nat) ^ 64 = 18446744073709551616 := by norm_num
  have hhdr : efiHandoffHeader.length = 56 := by decide
  have hread432 : memorySize < 2816 →
      readU64le (buildTdHob memorySize meta) 432 =
        (memorySize * 1048576 + 2 ^ 64 - 0x820000) % 2 ^ 64 := by
    intro hm
    simp only [buildTdHob, if_neg (by omega : ¬ 2816 ≤ memorySize)]
    simp only [resHob, ← List.append_assoc]
    rw [readU64le_overwrite_last _ _ _ _ (by omega)
      (by simp [efiHandoffHeader, le64Bytes_length])]
    simp only [sub64, hN]
    omega
  refine ⟨?_, hread432, ?_, fun hsmall => ?_⟩
  · by_cases hm : 2816 ≤ memorySize
    · simp only [buildTdHob, if_pos hm]
      rw [overwriteEnd_length _ _ (by simp [hhdr])]
      simp [resHob_length, hhdr]
    · simp only [buildTdHob, if_neg hm]
      rw [overwriteEnd_length _ _ (by simp [hhdr])]
      simp [resHob_length, hhdr]
  · intro hm
    simp only [buildTdHob, if_pos hm]
    simp only [resHob, ← List.append_assoc]
    rw [readU64le_overwrite_last _ _ _ _ (by omega)
      (by simp [efiHandoffHeader, le64Bytes_length])]
    have hbig : 0x80000000 ≤ memorySize * 1048576 := by
      calc (0x80000000 : Nat) ≤ 2816 * 1048576 := by norm_num
        _ ≤ memorySize * 1048576 := Nat.mul_le_mul_right _ hm
    simp only [sub64, hN]
    omega
  · rw [hread432 (by omega), hN]
    omega

/-- C10 (witness): at 4 MiB the final record carries the wrapped huge
length. -/
theorem claim_C10_witness :
    2 ^ 64 - 0x820000 ≤ readU64le (buildTdHob 4 none) 432 :=
  (claim_C10 4 none).2.2.2 (by norm_num)

theorem hexDecodeChars_isSome : ∀ cs : List Char,
    (hexDecodeChars cs).isSome =
      (cs.length % 2 = 0 && cs.all fun c => (hexDigitVal c).isSome)
  | [] => by simp [hexDecodeChars]
  | [c] => by simp [hexDecodeChars]
  | c1 :: c2 :: rest => by
    have ih := hexDecodeChars_isSome rest
    have hmod : ((rest.length + 1 + 1) % 2 = 0) ↔ (rest.length % 2 = 0) := by omega
    simp only [hexDecodeChars, List.length_cons, List.all_cons]
    cases h1 : hexDigitVal c1 <;> cases h2 : hexDigitVal c2 <;>
      cases h3 : hexDecodeChars rest <;> simp_all [hmod]

/-- C9: `CalculateMrAggregated` accepts its key-provider argument exactly
when, after stripping an optional `0x` prefix, it is valid hexadecimal of
**any** length (the Go source panics otherwise, modelled as `none`; there is
no 32-byte length check), and on success it hex-encodes
`SHA256(MRTD ‖ RTMR0 ‖ RTMR1 ‖ RTMR2 ‖ keyProviderBytes)`. -/
theorem claim_C9 (m : TdxMeasurements) (s : String) :
    ((CalculateMrAggregated m s).isSome ↔ isValidHexStr (trimPrefix0x s) = true) ∧
    (∀ bs, hexDecode (trimPrefix0x s) = some bs →
      CalculateMrAggregated m s =
        some (hexEncode (sha256 (m.MRTD ++ m.RTMR0 ++ m.RTMR1 ++ m.RTMR2 ++ bs)))) := by
  have hb := hexDecodeChars_isSome (trimPrefix0x s).data
  constructor
  · cases h : hexDecodeChars (trimPrefix0x s).data with
    | none =>
      have hv : isValidHexStr (trimPrefix0x s) = false := by
        rw [isValidHexStr]
        rw [h] at hb
        exact hb.symm
      simp [CalculateMrAggregated, hexDecode, h, hv]
    | some bs =>
      have hv : isValidHexStr (trimPrefix0x s) = true := by
        rw [isValidHexStr]
        rw [h] at hb
        exact hb.symm
      simp [CalculateMrAggregated, hexDecode, h, hv]
  · intro bs hbs
    simp only [CalculateMrAggregated, hbs]

/-- C9 (witness): a 1-byte and a 2-byte key-provider string (not 32 bytes)
are both accepted; the 2-byte one yields the stated SHA-256. -/
theorem claim_C9_witness :
    (CalculateMrAggregated measW "ab").isSome ∧
    CalculateMrAggregated measW "0xffff" =
      some (hexEncode (sha256 (measW.MRTD ++ measW.RTMR0 ++ measW.RTMR1 ++
        measW.RTMR2 ++ [255, 255]))) :=
  ⟨(claim_C9 measW "ab").1.mpr (by decide),
   (claim_C9 measW "0xffff").2 [255, 255] (by decide)⟩

/-! ## Kernel patcher lemmas

Commutation and absorption laws for the header writes: rewriting a field
that already holds the same value is a no-op, and writes to disjoint byte
ranges commute.  These drive the idempotence proof. -/

theorem or80_mod_two (x : Nat) : (x ||| 0x80) % 2 = x % 2 := by
  rw [← Nat.and_one_is_mod, ← Nat.and_one_is_mod]
  rw [Nat.and_comm, Nat.and_comm x 1]
  rw [Nat.and_or_distrib_left]
  norm_num

theorem or80_or80 (x : Nat) : (x ||| 0x80) ||| 0x80 = x ||| 0x80 := by
  rw [Nat.or_assoc, Nat.or_self]

theorem w32_set_comm (l : List Nat) (off v i a : Nat) (h : i < off ∨ off + 4 ≤ i) :
    (writeU32le l off v).set i a = writeU32le (l.set i a) off v := by
  unfold writeU32le
  rw [List.set_comm _ _ _ (show off + 3 ≠ i by omega),
    List.set_comm _ _ _ (show off + 2 ≠ i by omega),
    List.set_comm _ _ _ (show off + 1 ≠ i by omega),
    List.set_comm _ _ _ (show off ≠ i by omega)]

theorem w16_set_comm (l : List Nat) (off v i a : Nat) (h : i < off ∨ off + 2 ≤ i) :
    (writeU16le l off v).set i a = writeU16le (l.set i a) off v := by
  unfold writeU16le
  rw [List.set_comm _ _ _ (show off + 1 ≠ i by omega),
    List.set_comm _ _ _ (show off ≠ i by omega)]

theorem w32_w32_comm (l : List Nat) (o1 v1 o2 v2 : Nat)
    (h : o2 + 4 ≤ o1 ∨ o1 + 4 ≤ o2) :
    writeU32le (writeU32le l o1 v1) o2 v2 = writeU32le (writeU32le l o2 v2) o1 v1 := by
  have d0 : o2 < o1 ∨ o1 + 4 ≤ o2 := by omega
  have d1 : o2 + 1 < o1 ∨ o1 + 4 ≤ o2 + 1 := by omega
  have d2 : o2 + 2 < o1 ∨ o1 + 4 ≤ o2 + 2 := by omega
  have d3 : o2 + 3 < o1 ∨ o1 + 4 ≤ o2 + 3 := by omega
  show ((((writeU32le l o1 v1).set o2 (v2 % 256)).set (o2 + 1) (v2 / 256 % 256)).set
      (o2 + 2) (v2 / 65536 % 256)).set (o2 + 3) (v2 / 16777216 % 256) = _
  rw [w32_set_comm _ _ _ _ _ d0, w32_set_comm _ _ _ _ _ d1,
    w32_set_comm _ _ _ _ _ d2, w32_set_comm _ _ _ _ _ d3]
  rfl

theorem w16_w32_comm (l : List Nat) (o1 v1 o2 v2 : Nat)
    (h : o2 + 2 ≤ o1 ∨ o1 + 4 ≤ o2) :
    writeU16le (writeU32le l o1 v1) o2 v2 = writeU32le (writeU16le l o2 v2) o1 v1 := by
  have d0 : o2 < o1 ∨ o1 + 4 ≤ o2 := by omega
  have d1 : o2 + 1 < o1 ∨ o1 + 4 ≤ o2 + 1 := by omega
  show ((writeU32le l o1 v1).set o2 (v2 % 256)).set (o2 + 1) (v2 / 256 % 256) = _
  rw [w32_set_comm _ _ _ _ _ d0, w32_set_comm _ _ _ _ _ d1]
  rfl

theorem w16_w16_comm (l : List Nat) (o1 v1 o2 v2 : Nat)
    (h : o2 + 2 ≤ o1 ∨ o1 + 2 ≤ o2) :
    writeU16le (writeU16le l o1 v1) o2 v2 = writeU16le (writeU16le l o2 v2) o1 v1 := by
  have d0 : o2 < o1 ∨ o1 + 2 ≤ o2 := by omega
  have d1 : o2 + 1 < o1 ∨ o1 + 2 ≤ o2 + 1 := by omega
  show ((writeU16le l o1 v1).set o2 (v2 % 256)).set (o2 + 1) (v2 / 256 % 256) = _
  rw [w16_set_comm _ _ _ _ _ d0, w16_set_comm _ _ _ _ _ d1]
  rfl

theorem set_absorb_through1 (l : List Nat) (i a j b : Nat) (h : j ≠ i) :
    (((l.set i a).set j b).set i a) = (l.set i a).set j b := by
  rw [List.set_comm _ _ _ h, List.set_set]

theorem w32_absorb (l : List Nat) (off v : Nat) :
    writeU32le (writeU32le l off v) off v = writeU32le l off v := by
  have e0 : (writeU32le l off v).set off (v % 256) = writeU32le l off v := by
    unfold writeU32le
    rw [List.set_comm _ _ _ (show off + 3 ≠ off by omega),
      List.set_comm _ _ _ (show off + 2 ≠ off by omega),
      List.set_comm _ _ _ (show off + 1 ≠ off by omega),
      List.set_set]
  have e1 : (writeU32le l off v).set (off + 1) (v / 256 % 256) = writeU32le l off v := by
    unfold writeU32le
    rw [List.set_comm _ _ _ (show off + 3 ≠ off + 1 by omega),
      List.set_comm _ _ _ (show off + 2 ≠ off + 1 by omega),
      List.set_set]
  have e2 : (writeU32le l off v).set (off + 2) (v / 65536 % 256) = writeU32le l off v := by
    unfold writeU32le
    rw [List.set_comm _ _ _ (show off + 3 ≠ off + 2 by omega),
      List.set_set]
  have e3 : (writeU32le l off v).set (off + 3) (v / 16777216 % 256) = writeU32le l off v := by
    unfold writeU32le
    rw [List.set_set]
  show (((( writeU32le l off v).set off (v % 256)).set (off + 1) (v / 256 % 256)).set
      (off + 2) (v / 65536 % 256)).set (off + 3) (v / 16777216 % 256) = _
  rw [e0, e1, e2, e3]

theorem w16_absorb (l : List Nat) (off v : Nat) :
    writeU16le (writeU16le l off v) off v = writeU16le l off v := by
  have e0 : (writeU16le l off v).set off (v % 256) = writeU16le l off v := by
    unfold writeU16le
    rw [List.set_comm _ _ _ (show off + 1 ≠ off by omega), List.set_set]
  have e1 : (writeU16le l off v).set (off + 1) (v / 256 % 256) = writeU16le l off v := by
    unfold writeU16le
    rw [List.set_set]
  show ((writeU16le l off v).set off (v % 256)).set (off + 1) (v / 256 % 256) = _
  rw [e0, e1]

theorem readU16le_stage3_0x236 (kd : List Nat) (b x v1 c : Nat) :
    readU16le (writeU32le (writeU32le ((kd.set 0x210 b).set 0x211 x) 0x224 v1)
      0x228 c) 0x236 = readU16le kd 0x236 := by
  rw [readU16le_writeU32le_ne _ _ (by omega), readU16le_writeU32le_ne _ _ (by omega)]
  unfold readU16le
  rw [byteAt_set_ne _ _ (by omega), byteAt_set_ne _ _ (by omega),
    byteAt_set_ne _ _ (by omega), byteAt_set_ne _ _ (by omega)]

/-- C7: a protocol-0x20D kernel with the `XLF_CAN_BE_LOADED_ABOVE_4G` bit
set, 4096 MiB of memory, a 10 MiB initrd and `acpiDataSize = 0x28000`:
`initrdMax` starts at `0xFFFFFFFF`, is truncated to
`0x80000000 - 0x28000 - 1 = 0x7FFD7FFF`, the patch succeeds, and the kernel
header receives `initrdAddr = (0x7FFD7FFF - 10·1048576) & ~0xFFF` at offset
0x218 and the initrd size at 0x21C. -/
theorem claim_C7 (kd : List Nat) (hlen : 0x1000 ≤ kd.length)
    (hp1 : byteAt kd 0x206 = 0x0D) (hp2 : byteAt kd 0x207 = 0x02)
    (hxlf : readU16le kd 0x236 &&& 0x40 ≠ 0) :
    ∃ buf, patchKernelData kd 10485760 4096 0x28000 = .ok buf ∧
      readU32le buf 0x218 = (0x7FFD7FFF - 10 * 1048576) &&& 0xFFFFF000 ∧
      readU32le buf 0x21C = 10 * 1048576 := by
  simp only [patchKernelData, hp1, hp2]
  rw [if_neg (by omega)]
  norm_num
  by_cases hpar : byteAt kd 0x211 % 2 = 0
  · simp only [hpar, if_pos (Or.inr rfl)]
    norm_num
    rw [readU16le_stage3_0x236]
    simp only [if_neg hxlf]
    norm_num [sub32]
    refine ⟨?_, ?_⟩
    · rw [readU32le_writeU32le_ne _ _ (by omega),
        readU32le_writeU32le_self _ _
          (by simp only [writeU32le_length, List.length_set]; omega)]
      decide
    · rw [readU32le_writeU32le_self _ _
        (by simp only [writeU32le_length, List.length_set]; omega)]
      norm_num
  · simp only [if_neg hpar]
    norm_num
    rw [readU16le_stage3_0x236]
    simp only [if_neg hxlf]
    norm_num [sub32]
    refine ⟨?_, ?_⟩
    · rw [readU32le_writeU32le_ne _ _ (by omega),
        readU32le_writeU32le_self _ _
          (by simp only [writeU32le_length, List.length_set]; omega)]
      decide
    · rw [readU32le_writeU32le_self _ _
        (by simp only [writeU32le_length, List.length_set]; omega)]
      norm_num

theorem readU16le_set_ne (l : List Nat) {i off : Nat} (v : Nat)
    (h : i < off ∨ off + 2 ≤ i) : readU16le (l.set i v) off = readU16le l off := by
  unfold readU16le
  rw [byteAt_set_ne _ _ (by omega), byteAt_set_ne _ _ (by omega)]

theorem readU32le_set_ne (l : List Nat) {i off : Nat} (v : Nat)
    (h : i < off ∨ off + 4 ≤ i) : readU32le (l.set i v) off = readU32le l off := by
  unfold readU32le
  rw [byteAt_set_ne _ _ (by omega), byteAt_set_ne _ _ (by omega),
    byteAt_set_ne _ _ (by omega), byteAt_set_ne _ _ (by omega)]

theorem readU32le_stage3_0x22c (kd : List Nat) (b x v1 c : Nat) :
    readU32le (writeU32le (writeU32le ((kd.set 0x210 b).set 0x211 x) 0x224 v1)
      0x228 c) 0x22c = readU32le kd 0x22c := by
  rw [readU32le_writeU32le_ne _ _ (by omega), readU32le_writeU32le_ne _ _ (by omega),
    readU32le_set_ne _ _ (by omega), readU32le_set_ne _ _ (by omega)]

set_option maxHeartbeats 4000000 in
/-- C8: the kernel header patch is idempotent.  Whenever
`patchKernelData kd initRdSize memSize acpiDataSize` succeeds with patched
buffer `buf`, running the patch again on `buf` with the same initrd size,
memory size and ACPI data size succeeds and returns `buf` byte-identically
(hence the authenticode SHA-384 digest of the patched image is reproduced on
a re-run). -/
theorem claim_C8 (kd : List Nat) (initRdSize memSize acpiDataSize : Nat)
    (buf : List Nat)
    (h : patchKernelData kd initRdSize memSize acpiDataSize = .ok buf) :
    patchKernelData buf initRdSize memSize acpiDataSize = .ok buf := by
  simp only [patchKernelData] at h
  by_cases hl : kd.length < 0x1000
  · rw [if_pos hl] at h
    exact Except.noConfusion h
  rw [if_neg hl] at h
  set X := byteAt kd 0x206 + 256 * byteAt kd 0x207 with hX
  by_cases h512 : 0x200 ≤ X
  case neg =>
    have fx : X < 0x200 := by omega
    have f513n : ¬(0x201 ≤ X) := by omega
    have f514n : ¬(0x202 ≤ X) := by omega
    simp only [if_pos (Or.inl fx : X < 0x200 ∨ byteAt kd 0x211 % 2 = 0),
      if_neg h512, if_neg f513n, if_neg f514n] at h
    by_cases hiz : initRdSize % 2 ^ 32 = 0
    · rw [if_pos hiz] at h
      injection h with hbuf
      have hbl : buf.length = kd.length := by
        rw [← hbuf]; simp only [writeU16le_length]
      have h206 : byteAt buf 0x206 = byteAt kd 0x206 := by
        rw [← hbuf, byteAt_writeU16le_ne _ _ (by omega),
          byteAt_writeU16le_ne _ _ (by omega)]
      have h207 : byteAt buf 0x207 = byteAt kd 0x207 := by
        rw [← hbuf, byteAt_writeU16le_ne _ _ (by omega),
          byteAt_writeU16le_ne _ _ (by omega)]
      have c1 : writeU16le buf 0x20 0xA33F = buf := by
        rw [← hbuf, w16_w16_comm _ _ _ _ _ (show (0x20:Nat) + 2 ≤ 0x22 ∨ 0x22 + 2 ≤ 0x20 by omega), w16_absorb]
      have c2 : writeU16le buf 0x22 (0x9a000 - 0x90000) = buf := by
        rw [← hbuf, w16_absorb]
      simp only [patchKernelData]
      rw [if_neg (show ¬(buf.length < 0x1000) by omega)]
      rw [h206, h207, ← hX]
      simp only [if_pos (Or.inl fx : X < 0x200 ∨ byteAt buf 0x211 % 2 = 0),
        if_neg h512, if_neg f513n, if_neg f514n, if_pos hiz]
      rw [c1, c2]
    · rw [if_neg hiz, if_pos fx] at h
      exact Except.noConfusion h
  case pos =>
  by_cases h513 : 0x201 ≤ X
  case neg =>
    have fx2 : X < 0x202 := by omega
    have fxn : ¬(X < 0x200) := by omega
    have f514n : ¬(0x202 ≤ X) := by omega
    simp only [if_pos fx2, ite_self, if_pos h512, if_neg h513, if_neg f514n] at h
    by_cases hiz : initRdSize % 2 ^ 32 = 0
    · rw [if_pos hiz] at h
      injection h with hbuf
      have hbl : buf.length = kd.length := by
        rw [← hbuf]; simp only [writeU16le_length, List.length_set]
      have h206 : byteAt buf 0x206 = byteAt kd 0x206 := by
        rw [← hbuf, byteAt_writeU16le_ne _ _ (by omega),
          byteAt_writeU16le_ne _ _ (by omega), byteAt_set_ne _ _ (by omega)]
      have h207 : byteAt buf 0x207 = byteAt kd 0x207 := by
        rw [← hbuf, byteAt_writeU16le_ne _ _ (by omega),
          byteAt_writeU16le_ne _ _ (by omega), byteAt_set_ne _ _ (by omega)]
      have c0 : buf.set 0x210 0xb0 = buf := by
        rw [← hbuf, w16_set_comm _ _ _ _ _ (by omega),
          w16_set_comm _ _ _ _ _ (by omega), List.set_set]
      have c1 : writeU16le buf 0x20 0xA33F = buf := by
        rw [← hbuf, w16_w16_comm _ _ _ _ _ (show (0x20:Nat) + 2 ≤ 0x22 ∨ 0x22 + 2 ≤ 0x20 by omega), w16_absorb]
      have c2 : writeU16le buf 0x22 (0x9a000 - 0x90000) = buf := by
        rw [← hbuf, w16_absorb]
      simp only [patchKernelData]
      rw [if_neg (show ¬(buf.length < 0x1000) by omega)]
      rw [h206, h207, ← hX]
      simp only [if_pos fx2, ite_self, if_pos h512, if_neg h513, if_neg f514n,
        if_pos hiz]
      rw [c0, c1, c2]
    · rw [if_neg hiz, if_neg fxn] at h
      have f20cn : ¬(0x20c ≤ X) := by omega
      have f203n : ¬(0x203 ≤ X) := by omega
      rw [if_neg f20cn, if_neg f203n] at h
      set msb := memSize * 1048576 % 2 ^ 64 with hmsb
      set lm := if msb < 0xb0000000 then (0xb0000000 : Nat) else 0x80000000 with hlm
      set b4g := if lm ≤ msb then lm else msb % 2 ^ 32 with hb4g
      set M2 := if sub32 b4g (acpiDataSize % 2 ^ 32) ≤ (0x37ffffff : Nat) then
        sub32 (sub32 b4g (acpiDataSize % 2 ^ 32)) 1 else 0x37ffffff with hM2
      by_cases hbig : M2 ≤ initRdSize % 2 ^ 32
      · rw [if_pos hbig] at h
        exact Except.noConfusion h
      rw [if_neg hbig] at h
      injection h with hbuf
      have hbl : buf.length = kd.length := by
        rw [← hbuf]
        simp only [writeU32le_length, writeU16le_length, List.length_set]
      have h206 : byteAt buf 0x206 = byteAt kd 0x206 := by
        rw [← hbuf, byteAt_writeU32le_ne _ _ (by omega),
          byteAt_writeU32le_ne _ _ (by omega), byteAt_writeU16le_ne _ _ (by omega),
          byteAt_writeU16le_ne _ _ (by omega), byteAt_set_ne _ _ (by omega)]
      have h207 : byteAt buf 0x207 = byteAt kd 0x207 := by
        rw [← hbuf, byteAt_writeU32le_ne _ _ (by omega),
          byteAt_writeU32le_ne _ _ (by omega), byteAt_writeU16le_ne _ _ (by omega),
          byteAt_writeU16le_ne _ _ (by omega), byteAt_set_ne _ _ (by omega)]
      have c0 : buf.set 0x210 0xb0 = buf := by
        rw [← hbuf, w32_set_comm _ _ _ _ _ (by omega),
          w32_set_comm _ _ _ _ _ (by omega), w16_set_comm _ _ _ _ _ (by omega),
          w16_set_comm _ _ _ _ _ (by omega), List.set_set]
      have c1 : writeU16le buf 0x20 0xA33F = buf := by
        rw [← hbuf, w16_w32_comm _ _ _ _ _ (show (0x20:Nat) + 2 ≤ 0x21c ∨ 0x21c + 4 ≤ 0x20 by omega),
          w16_w32_comm _ _ _ _ _ (show (0x20:Nat) + 2 ≤ 0x218 ∨ 0x218 + 4 ≤ 0x20 by omega),
          w16_w16_comm _ _ _ _ _ (show (0x20:Nat) + 2 ≤ 0x22 ∨ 0x22 + 2 ≤ 0x20 by omega), w16_absorb]
      have c2 : writeU16le buf 0x22 (0x9a000 - 0x90000) = buf := by
        rw [← hbuf, w16_w32_comm _ _ _ _ _ (show (0x22:Nat) + 2 ≤ 0x21c ∨ 0x21c + 4 ≤ 0x22 by omega),
          w16_w32_comm _ _ _ _ _ (show (0x22:Nat) + 2 ≤ 0x218 ∨ 0x218 + 4 ≤ 0x22 by omega), w16_absorb]
      have c3 : writeU32le buf 0x218
          ((M2 - initRdSize % 2 ^ 32) &&& 0xFFFFF000) = buf := by
        rw [← hbuf, w32_w32_comm _ _ _ _ _ (show (0x218:Nat) + 4 ≤ 0x21c ∨ 0x21c + 4 ≤ 0x218 by omega), w32_absorb]
      have c4 : writeU32le buf 0x21c (initRdSize % 2 ^ 32) = buf := by
        rw [← hbuf, w32_absorb]
      simp only [patchKernelData]
      rw [if_neg (show ¬(buf.length < 0x1000) by omega)]
      rw [h206, h207, ← hX]
      simp only [if_pos fx2, ite_self, if_pos h512, if_neg h513, if_neg f514n,
        if_neg hiz, if_neg fxn, if_neg f20cn, if_neg f203n]
      rw [← hmsb, ← hlm, ← hb4g, ← hM2, if_neg hbig]
      rw [c0, c1, c2, c3, c4]
  case pos =>
  by_cases h514 : 0x202 ≤ X
  case neg =>
    have fx2 : X < 0x202 := by omega
    have fxn : ¬(X < 0x200) := by omega
    simp only [if_pos fx2, ite_self, if_pos h512, if_pos h513, if_neg h514] at h
    rw [byteAt_set_ne _ _ (by omega)] at h
    by_cases hiz : initRdSize % 2 ^ 32 = 0
    · rw [if_pos hiz] at h
      injection h with hbuf
      have hbl : buf.length = kd.length := by
        rw [← hbuf]
        simp only [writeU32le_length, writeU16le_length, List.length_set]
      have h206 : byteAt buf 0x206 = byteAt kd 0x206 := by
        rw [← hbuf, byteAt_writeU16le_ne _ _ (by omega),
          byteAt_writeU16le_ne _ _ (by omega), byteAt_writeU32le_ne _ _ (by omega),
          byteAt_set_ne _ _ (by omega), byteAt_set_ne _ _ (by omega)]
      have h207 : byteAt buf 0x207 = byteAt kd 0x207 := by
        rw [← hbuf, byteAt_writeU16le_ne _ _ (by omega),
          byteAt_writeU16le_ne _ _ (by omega), byteAt_writeU32le_ne _ _ (by omega),
          byteAt_set_ne _ _ (by omega), byteAt_set_ne _ _ (by omega)]
      have h211 : byteAt buf 0x211 = byteAt kd 0x211 ||| 0x80 := by
        rw [← hbuf, byteAt_writeU16le_ne _ _ (by omega),
          byteAt_writeU16le_ne _ _ (by omega), byteAt_writeU32le_ne _ _ (by omega),
          byteAt_set_lt _ _ (by simp only [List.length_set]; omega)]
      have c0 : buf.set 0x210 0xb0 = buf := by
        rw [← hbuf, w16_set_comm _ _ _ _ _ (by omega),
          w16_set_comm _ _ _ _ _ (by omega), w32_set_comm _ _ _ _ _ (by omega),
          List.set_comm _ _ _ (by omega), List.set_set]
      have c1 : buf.set 0x211 (byteAt kd 0x211 ||| 0x80) = buf := by
        rw [← hbuf, w16_set_comm _ _ _ _ _ (by omega),
          w16_set_comm _ _ _ _ _ (by omega), w32_set_comm _ _ _ _ _ (by omega),
          List.set_set]
      have c2 : writeU32le buf 0x224 (0x9a000 - 0x90000 - 0x200) = buf := by
        rw [← hbuf, ← w16_w32_comm _ _ _ _ _ (show (0x22:Nat) + 2 ≤ 0x224 ∨ 0x224 + 4 ≤ 0x22 by omega),
          ← w16_w32_comm _ _ _ _ _ (show (0x20:Nat) + 2 ≤ 0x224 ∨ 0x224 + 4 ≤ 0x20 by omega), w32_absorb]
      have c3 : writeU16le buf 0x20 0xA33F = buf := by
        rw [← hbuf, w16_w16_comm _ _ _ _ _ (show (0x20:Nat) + 2 ≤ 0x22 ∨ 0x22 + 2 ≤ 0x20 by omega), w16_absorb]
      have c4 : writeU16le buf 0x22 (0x9a000 - 0x90000) = buf := by
        rw [← hbuf, w16_absorb]
      simp only [patchKernelData]
      rw [if_neg (show ¬(buf.length < 0x1000) by omega)]
      rw [h206, h207, ← hX]
      simp only [if_pos fx2, ite_self, if_pos h512, if_pos h513, if_neg h514,
        if_pos hiz]
      rw [byteAt_set_ne _ _ (by omega), h211, or80_or80]
      rw [c0, c1, c2, c3, c4]
    · rw [if_neg hiz, if_neg fxn] at h
      have f20cn : ¬(0x20c ≤ X) := by omega
      have f203n : ¬(0x203 ≤ X) := by omega
      rw [if_neg f20cn, if_neg f203n] at h
      set msb := memSize * 1048576 % 2 ^ 64 with hmsb
      set lm := if msb < 0xb0000000 then (0xb0000000 : Nat) else 0x80000000 with hlm
      set b4g := if lm ≤ msb then lm else msb % 2 ^ 32 with hb4g
      set M2 := if sub32 b4g (acpiDataSize % 2 ^ 32) ≤ (0x37ffffff : Nat) then
        sub32 (sub32 b4g (acpiDataSize % 2 ^ 32)) 1 else 0x37ffffff with hM2
      by_cases hbig : M2 ≤ initRdSize % 2 ^ 32
      · rw [if_pos hbig] at h
        exact Except.noConfusion h
      rw [if_neg hbig] at h
      injection h with hbuf
      have hbl : buf.length = kd.length := by
        rw [← hbuf]
        simp only [writeU32le_length, writeU16le_length, List.length_set]
      have h206 : byteAt buf 0x206 = byteAt kd 0x206 := by
        rw [← hbuf, byteAt_writeU32le_ne _ _ (by omega),
          byteAt_writeU32le_ne _ _ (by omega), byteAt_writeU16le_ne _ _ (by omega),
          byteAt_writeU16le_ne _ _ (by omega), byteAt_writeU32le_ne _ _ (by omega),
          byteAt_set_ne _ _ (by omega), byteAt_set_ne _ _ (by omega)]
      have h207 : byteAt buf 0x207 = byteAt kd 0x207 := by
        rw [← hbuf, byteAt_writeU32le_ne _ _ (by omega),
          byteAt_writeU32le_ne _ _ (by omega), byteAt_writeU16le_ne _ _ (by omega),
          byteAt_writeU16le_ne _ _ (by omega), byteAt_writeU32le_ne _ _ (by omega),
          byteAt_set_ne _ _ (by omega), byteAt_set_ne _ _ (by omega)]
      have h211 : byteAt buf 0x211 = byteAt kd 0x211 ||| 0x80 := by
        rw [← hbuf, byteAt_writeU32le_ne _ _ (by omega),
          byteAt_writeU32le_ne _ _ (by omega), byteAt_writeU16le_ne _ _ (by omega),
          byteAt_writeU16le_ne _ _ (by omega), byteAt_writeU32le_ne _ _ (by omega),
          byteAt_set_lt _ _ (by simp only [List.length_set]; omega)]
      have c0 : buf.set 0x210 0xb0 = buf := by
        rw [← hbuf, w32_set_comm _ _ _ _ _ (by omega),
          w32_set_comm _ _ _ _ _ (by omega), w16_set_comm _ _ _ _ _ (by omega),
          w16_set_comm _ _ _ _ _ (by omega), w32_set_comm _ _ _ _ _ (by omega),
          List.set_comm _ _ _ (by omega), List.set_set]
      have c1 : buf.set 0x211 (byteAt kd 0x211 ||| 0x80) = buf := by
        rw [← hbuf, w32_set_comm _ _ _ _ _ (by omega),
          w32_set_comm _ _ _ _ _ (by omega), w16_set_comm _ _ _ _ _ (by omega),
          w16_set_comm _ _ _ _ _ (by omega), w32_set_comm _ _ _ _ _ (by omega),
          List.set_set]
      have c2 : writeU32le buf 0x224 (0x9a000 - 0x90000 - 0x200) = buf := by
        rw [← hbuf, w32_w32_comm _ _ _ _ _ (show (0x224:Nat) + 4 ≤ 0x21c ∨ 0x21c + 4 ≤ 0x224 by omega),
          w32_w32_comm _ _ _ _ _ (show (0x224:Nat) + 4 ≤ 0x218 ∨ 0x218 + 4 ≤ 0x224 by omega),
          ← w16_w32_comm _ _ _ _ _ (show (0x22:Nat) + 2 ≤ 0x224 ∨ 0x224 + 4 ≤ 0x22 by omega),
          ← w16_w32_comm _ _ _ _ _ (show (0x20:Nat) + 2 ≤ 0x224 ∨ 0x224 + 4 ≤ 0x20 by omega), w32_absorb]
      have c3 : writeU16le buf 0x20 0xA33F = buf := by
        rw [← hbuf, w16_w32_comm _ _ _ _ _ (show (0x20:Nat) + 2 ≤ 0x21c ∨ 0x21c + 4 ≤ 0x20 by omega),
          w16_w32_comm _ _ _ _ _ (show (0x20:Nat) + 2 ≤ 0x218 ∨ 0x218 + 4 ≤ 0x20 by omega),
          w16_w16_comm _ _ _ _ _ (show (0x20:Nat) + 2 ≤ 0x22 ∨ 0x22 + 2 ≤ 0x20 by omega), w16_absorb]
      have c4 : writeU16le buf 0x22 (0x9a000 - 0x90000) = buf := by
        rw [← hbuf, w16_w32_comm _ _ _ _ _ (show (0x22:Nat) + 2 ≤ 0x21c ∨ 0x21c + 4 ≤ 0x22 by omega),
          w16_w32_comm _ _ _ _ _ (show (0x22:Nat) + 2 ≤ 0x218 ∨ 0x218 + 4 ≤ 0x22 by omega), w16_absorb]
      have c5 : writeU32le buf 0x218
          ((M2 - initRdSize % 2 ^ 32) &&& 0xFFFFF000) = buf := by
        rw [← hbuf, w32_w32_comm _ _ _ _ _ (show (0x218:Nat) + 4 ≤ 0x21c ∨ 0x21c + 4 ≤ 0x218 by omega), w32_absorb]
      have c6 : writeU32le buf 0x21c (initRdSize % 2 ^ 32) = buf := by
        rw [← hbuf, w32_absorb]
      simp only [patchKernelData]
      rw [if_neg (show ¬(buf.length < 0x1000) by omega)]
      rw [h206, h207, ← hX]
      simp only [if_pos fx2, ite_self, if_pos h512, if_pos h513, if_neg h514,
        if_neg hiz, if_neg fxn, if_neg f20cn, if_neg f203n]
      rw [byteAt_set_ne _ _ (by omega), h211, or80_or80]
      rw [← hmsb, ← hlm, ← hb4g, ← hM2, if_neg hbig]
      rw [c0, c1, c2, c3, c4, c5, c6]
  case pos =>
  have f513 : 0x201 ≤ X := by omega
  have fnlt2 : ¬(X < 0x202) := by omega
  have fxn : ¬(X < 0x200) := by omega
  by_cases hpar : byteAt kd 0x211 % 2 = 0
  · simp only [if_pos (Or.inr hpar : X < 0x200 ∨ byteAt kd 0x211 % 2 = 0),
      if_pos h512, if_pos f513, if_pos h514] at h
    rw [byteAt_set_ne _ _ (by omega)] at h
    by_cases hiz : initRdSize % 2 ^ 32 = 0
    · rw [if_pos hiz] at h
      injection h with hbuf
      have hbl : buf.length = kd.length := by
        rw [← hbuf]; simp only [writeU32le_length, List.length_set]
      have h206 : byteAt buf 0x206 = byteAt kd 0x206 := by
        rw [← hbuf, byteAt_writeU32le_ne _ _ (by omega),
          byteAt_writeU32le_ne _ _ (by omega), byteAt_set_ne _ _ (by omega),
          byteAt_set_ne _ _ (by omega)]
      have h207 : byteAt buf 0x207 = byteAt kd 0x207 := by
        rw [← hbuf, byteAt_writeU32le_ne _ _ (by omega),
          byteAt_writeU32le_ne _ _ (by omega), byteAt_set_ne _ _ (by omega),
          byteAt_set_ne _ _ (by omega)]
      have h211 : byteAt buf 0x211 = byteAt kd 0x211 ||| 0x80 := by
        rw [← hbuf, byteAt_writeU32le_ne _ _ (by omega),
          byteAt_writeU32le_ne _ _ (by omega),
          byteAt_set_lt _ _ (by simp only [List.length_set]; omega)]
      have c0 : buf.set 0x210 0xb0 = buf := by
        rw [← hbuf, w32_set_comm _ _ _ _ _ (by omega),
          w32_set_comm _ _ _ _ _ (by omega), List.set_comm _ _ _ (by omega),
          List.set_set]
      have c1 : buf.set 0x211 (byteAt kd 0x211 ||| 0x80) = buf := by
        rw [← hbuf, w32_set_comm _ _ _ _ _ (by omega),
          w32_set_comm _ _ _ _ _ (by omega), List.set_set]
      have c2 : writeU32le buf 0x224 (0x9a000 - 0x90000 - 0x200) = buf := by
        rw [← hbuf, w32_w32_comm _ _ _ _ _ (show (0x224:Nat) + 4 ≤ 0x228 ∨ 0x228 + 4 ≤ 0x224 by omega), w32_absorb]
      have c3 : writeU32le buf 0x228 0x9a000 = buf := by
        rw [← hbuf, w32_absorb]
      simp only [patchKernelData]
      rw [if_neg (show ¬(buf.length < 0x1000) by omega)]
      rw [h206, h207, h211, or80_mod_two, ← hX]
      simp only [if_pos (Or.inr hpar : X < 0x200 ∨ byteAt kd 0x211 % 2 = 0),
        if_pos h512, if_pos f513, if_pos h514, if_pos hiz]
      rw [byteAt_set_ne _ _ (by omega), h211, or80_or80]
      rw [c0, c1, c2, c3]
    · rw [if_neg hiz, if_neg fxn] at h
      rw [readU16le_stage3_0x236, readU32le_stage3_0x22c] at h
      set msb := memSize * 1048576 % 2 ^ 64 with hmsb
      set lm := if msb < 0xb0000000 then (0xb0000000 : Nat) else 0x80000000 with hlm
      set b4g := if lm ≤ msb then lm else msb % 2 ^ 32 with hb4g
      set m0 := if 0x20c ≤ X then
          (if readU16le kd 0x236 &&& 0x40 ≠ 0 then (0xffffffff : Nat) else 0x37ffffff)
        else if 0x203 ≤ X then
          (if readU32le kd 0x22c = 0 then (0x37ffffff : Nat) else readU32le kd 0x22c)
        else 0x37ffffff with hm0
      set M2 := if sub32 b4g (acpiDataSize % 2 ^ 32) ≤ m0 then
        sub32 (sub32 b4g (acpiDataSize % 2 ^ 32)) 1 else m0 with hM2
      by_cases hbig : M2 ≤ initRdSize % 2 ^ 32
      · rw [if_pos hbig] at h
        exact Except.noConfusion h
      rw [if_neg hbig] at h
      injection h with hbuf
      have hbl : buf.length = kd.length := by
        rw [← hbuf]; simp only [writeU32le_length, List.length_set]
      have h206 : byteAt buf 0x206 = byteAt kd 0x206 := by
        rw [← hbuf, byteAt_writeU32le_ne _ _ (by omega),
          byteAt_writeU32le_ne _ _ (by omega), byteAt_writeU32le_ne _ _ (by omega),
          byteAt_writeU32le_ne _ _ (by omega), byteAt_set_ne _ _ (by omega),
          byteAt_set_ne _ _ (by omega)]
      have h207 : byteAt buf 0x207 = byteAt kd 0x207 := by
        rw [← hbuf, byteAt_writeU32le_ne _ _ (by omega),
          byteAt_writeU32le_ne _ _ (by omega), byteAt_writeU32le_ne _ _ (by omega),
          byteAt_writeU32le_ne _ _ (by omega), byteAt_set_ne _ _ (by omega),
          byteAt_set_ne _ _ (by omega)]
      have h211 : byteAt buf 0x211 = byteAt kd 0x211 ||| 0x80 := by
        rw [← hbuf, byteAt_writeU32le_ne _ _ (by omega),
          byteAt_writeU32le_ne _ _ (by omega), byteAt_writeU32le_ne _ _ (by omega),
          byteAt_writeU32le_ne _ _ (by omega),
          byteAt_set_lt _ _ (by simp only [List.length_set]; omega)]
      have r236 : readU16le buf 0x236 = readU16le kd 0x236 := by
        rw [← hbuf, readU16le_writeU32le_ne _ _ (by omega),
          readU16le_writeU32le_ne _ _ (by omega),
          readU16le_writeU32le_ne _ _ (by omega),
          readU16le_writeU32le_ne _ _ (by omega), readU16le_set_ne _ _ (by omega),
          readU16le_set_ne _ _ (by omega)]
      have r22c : readU32le buf 0x22c = readU32le kd 0x22c := by
        rw [← hbuf, readU32le_writeU32le_ne _ _ (by omega),
          readU32le_writeU32le_ne _ _ (by omega),
          readU32le_writeU32le_ne _ _ (by omega),
          readU32le_writeU32le_ne _ _ (by omega), readU32le_set_ne _ _ (by omega),
          readU32le_set_ne _ _ (by omega)]
      have c0 : buf.set 0x210 0xb0 = buf := by
        rw [← hbuf, w32_set_comm _ _ _ _ _ (by omega),
          w32_set_comm _ _ _ _ _ (by omega), w32_set_comm _ _ _ _ _ (by omega),
          w32_set_comm _ _ _ _ _ (by omega), List.set_comm _ _ _ (by omega),
          List.set_set]
      have c1 : buf.set 0x211 (byteAt kd 0x211 ||| 0x80) = buf := by
        rw [← hbuf, w32_set_comm _ _ _ _ _ (by omega),
          w32_set_comm _ _ _ _ _ (by omega), w32_set_comm _ _ _ _ _ (by omega),
          w32_set_comm _ _ _ _ _ (by omega), List.set_set]
      have c2 : writeU32le buf 0x224 (0x9a000 - 0x90000 - 0x200) = buf := by
        rw [← hbuf, w32_w32_comm _ _ _ _ _ (show (0x224:Nat) + 4 ≤ 0x21c ∨ 0x21c + 4 ≤ 0x224 by omega),
          w32_w32_comm _ _ _ _ _ (show (0x224:Nat) + 4 ≤ 0x218 ∨ 0x218 + 4 ≤ 0x224 by omega),
          w32_w32_comm _ _ _ _ _ (show (0x224:Nat) + 4 ≤ 0x228 ∨ 0x228 + 4 ≤ 0x224 by omega), w32_absorb]
      have c3 : writeU32le buf 0x228 0x9a000 = buf := by
        rw [← hbuf, w32_w32_comm _ _ _ _ _ (show (0x228:Nat) + 4 ≤ 0x21c ∨ 0x21c + 4 ≤ 0x228 by omega),
          w32_w32_comm _ _ _ _ _ (show (0x228:Nat) + 4 ≤ 0x218 ∨ 0x218 + 4 ≤ 0x228 by omega), w32_absorb]
      have c4 : writeU32le buf 0x218
          ((M2 - initRdSize % 2 ^ 32) &&& 0xFFFFF000) = buf := by
        rw [← hbuf, w32_w32_comm _ _ _ _ _ (show (0x218:Nat) + 4 ≤ 0x21c ∨ 0x21c + 4 ≤ 0x218 by omega), w32_absorb]
      have c5 : writeU32le buf 0x21c (initRdSize % 2 ^ 32) = buf := by
        rw [← hbuf, w32_absorb]
      simp only [patchKernelData]
      rw [if_neg (show ¬(buf.length < 0x1000) by omega)]
      rw [h206, h207, h211, or80_mod_two, ← hX]
      simp only [if_pos (Or.inr hpar : X < 0x200 ∨ byteAt kd 0x211 % 2 = 0),
        if_pos h512, if_pos f513, if_pos h514, if_neg hiz, if_neg fxn]
      rw [byteAt_set_ne _ _ (by omega), h211, or80_or80]
      rw [readU16le_stage3_0x236, readU32le_stage3_0x22c, r236, r22c]
      rw [← hmsb, ← hlm, ← hb4g, ← hm0, ← hM2, if_neg hbig]
      rw [c0, c1, c2, c3, c4, c5]
  · have fcond : ¬(X < 0x200 ∨ byteAt kd 0x211 % 2 = 0) := by
      push_neg
      exact ⟨by omega, hpar⟩
    simp only [if_neg fcond, if_neg fnlt2, if_pos h512, if_pos f513, if_pos h514] at h
    rw [byteAt_set_ne _ _ (by omega)] at h
    by_cases hiz : initRdSize % 2 ^ 32 = 0
    · rw [if_pos hiz] at h
      injection h with hbuf
      have hbl : buf.length = kd.length := by
        rw [← hbuf]; simp only [writeU32le_length, List.length_set]
      have h206 : byteAt buf 0x206 = byteAt kd 0x206 := by
        rw [← hbuf, byteAt_writeU32le_ne _ _ (by omega),
          byteAt_writeU32le_ne _ _ (by omega), byteAt_set_ne _ _ (by omega),
          byteAt_set_ne _ _ (by omega)]
      have h207 : byteAt buf 0x207 = byteAt kd 0x207 := by
        rw [← hbuf, byteAt_writeU32le_ne _ _ (by omega),
          byteAt_writeU32le_ne _ _ (by omega), byteAt_set_ne _ _ (by omega),
          byteAt_set_ne _ _ (by omega)]
      have h211 : byteAt buf 0x211 = byteAt kd 0x211 ||| 0x80 := by
        rw [← hbuf, byteAt_writeU32le_ne _ _ (by omega),
          byteAt_writeU32le_ne _ _ (by omega),
          byteAt_set_lt _ _ (by simp only [List.length_set]; omega)]
      have c0 : buf.set 0x210 0xb0 = buf := by
        rw [← hbuf, w32_set_comm _ _ _ _ _ (by omega),
          w32_set_comm _ _ _ _ _ (by omega), List.set_comm _ _ _ (by omega),
          List.set_set]
      have c1 : buf.set 0x211 (byteAt kd 0x211 ||| 0x80) = buf := by
        rw [← hbuf, w32_set_comm _ _ _ _ _ (by omega),
          w32_set_comm _ _ _ _ _ (by omega), List.set_set]
      have c2 : writeU32le buf 0x224 (0x20000 - 0x10000 - 0x200) = buf := by
        rw [← hbuf, w32_w32_comm _ _ _ _ _ (show (0x224:Nat) + 4 ≤ 0x228 ∨ 0x228 + 4 ≤ 0x224 by omega), w32_absorb]
      have c3 : writeU32le buf 0x228 0x20000 = buf := by
        rw [← hbuf, w32_absorb]
      simp only [patchKernelData]
      rw [if_neg (show ¬(buf.length < 0x1000) by omega)]
      rw [h206, h207, h211, or80_mod_two, ← hX]
      simp only [if_neg fcond, if_neg fnlt2, if_pos h512, if_pos f513, if_pos h514,
        if_pos hiz]
      rw [byteAt_set_ne _ _ (by omega), h211, or80_or80]
      rw [c0, c1, c2, c3]
    · rw [if_neg hiz, if_neg fxn] at h
      rw [readU16le_stage3_0x236, readU32le_stage3_0x22c] at h
      set msb := memSize * 1048576 % 2 ^ 64 with hmsb
      set lm := if msb < 0xb0000000 then (0xb0000000 : Nat) else 0x80000000 with hlm
      set b4g := if lm ≤ msb then lm else msb % 2 ^ 32 with hb4g
      set m0 := if 0x20c ≤ X then
          (if readU16le kd 0x236 &&& 0x40 ≠ 0 then (0xffffffff : Nat) else 0x37ffffff)
        else if 0x203 ≤ X then
          (if readU32le kd 0x22c = 0 then (0x37ffffff : Nat) else readU32le kd 0x22c)
        else 0x37ffffff with hm0
      set M2 := if sub32 b4g (acpiDataSize % 2 ^ 32) ≤ m0 then
        sub32 (sub32 b4g (acpiDataSize % 2 ^ 32)) 1 else m0 with hM2
      by_cases hbig : M2 ≤ initRdSize % 2 ^ 32
      · rw [if_pos hbig] at h
        exact Except.noConfusion h
      rw [if_neg hbig] at h
      injection h with hbuf
      have hbl : buf.length = kd.length := by
        rw [← hbuf]; simp only [writeU32le_length, List.length_set]
      have h206 : byteAt buf 0x206 = byteAt kd 0x206 := by
        rw [← hbuf, byteAt_writeU32le_ne _ _ (by omega),
          byteAt_writeU32le_ne _ _ (by omega), byteAt_writeU32le_ne _ _ (by omega),
          byteAt_writeU32le_ne _ _ (by omega), byteAt_set_ne _ _ (by omega),
          byteAt_set_ne _ _ (by omega)]
      have h207 : byteAt buf 0x207 = byteAt kd 0x207 := by
        rw [← hbuf, byteAt_writeU32le_ne _ _ (by omega),
          byteAt_writeU32le_ne _ _ (by omega), byteAt_writeU32le_ne _ _ (by omega),
          byteAt_writeU32le_ne _ _ (by omega), byteAt_set_ne _ _ (by omega),
          byteAt_set_ne _ _ (by omega)]
      have h211 : byteAt buf 0x211 = byteAt kd 0x211 ||| 0x80 := by
        rw [← hbuf, byteAt_writeU32le_ne _ _ (by omega),
          byteAt_writeU32le_ne _ _ (by omega), byteAt_writeU32le_ne _ _ (by omega),
          byteAt_writeU32le_ne _ _ (by omega),
          byteAt_set_lt _ _ (by simp only [List.length_set]; omega)]
      have r236 : readU16le buf 0x236 = readU16le kd 0x236 := by
        rw [← hbuf, readU16le_writeU32le_ne _ _ (by omega),
          readU16le_writeU32le_ne _ _ (by omega),
          readU16le_writeU32le_ne _ _ (by omega),
          readU16le_writeU32le_ne _ _ (by omega), readU16le_set_ne _ _ (by omega),
          readU16le_set_ne _ _ (by omega)]
      have r22c : readU32le buf 0x22c = readU32le kd 0x22c := by
        rw [← hbuf, readU32le_writeU32le_ne _ _ (by omega),
          readU32le_writeU32le_ne _ _ (by omega),
          readU32le_writeU32le_ne _ _ (by omega),
          readU32le_writeU32le_ne _ _ (by omega), readU32le_set_ne _ _ (by omega),
          readU32le_set_ne _ _ (by omega)]
      have c0 : buf.set 0x210 0xb0 = buf := by
        rw [← hbuf, w32_set_comm _ _ _ _ _ (by omega),
          w32_set_comm _ _ _ _ _ (by omega), w32_set_comm _ _ _ _ _ (by omega),
          w32_set_comm _ _ _ _ _ (by omega), List.set_comm _ _ _ (by omega),
          List.set_set]
      have c1 : buf.set 0x211 (byteAt kd 0x211 ||| 0x80) = buf := by
        rw [← hbuf, w32_set_comm _ _ _ _ _ (by omega),
          w32_set_comm _ _ _ _ _ (by omega), w32_set_comm _ _ _ _ _ (by omega),
          w32_set_comm _ _ _ _ _ (by omega), List.set_set]
      have c2 : writeU32le buf 0x224 (0x20000 - 0x10000 - 0x200) = buf := by
        rw [← hbuf, w32_w32_comm _ _ _ _ _ (show (0x224:Nat) + 4 ≤ 0x21c ∨ 0x21c + 4 ≤ 0x224 by omega),
          w32_w32_comm _ _ _ _ _ (show (0x224:Nat) + 4 ≤ 0x218 ∨ 0x218 + 4 ≤ 0x224 by omega),
          w32_w32_comm _ _ _ _ _ (show (0x224:Nat) + 4 ≤ 0x228 ∨ 0x228 + 4 ≤ 0x224 by omega), w32_absorb]
      have c3 : writeU32le buf 0x228 0x20000 = buf := by
        rw [← hbuf, w32_w32_comm _ _ _ _ _ (show (0x228:Nat) + 4 ≤ 0x21c ∨ 0x21c + 4 ≤ 0x228 by omega),
          w32_w32_comm _ _ _ _ _ (show (0x228:Nat) + 4 ≤ 0x218 ∨ 0x218 + 4 ≤ 0x228 by omega), w32_absorb]
      have c4 : writeU32le buf 0x218
          ((M2 - initRdSize % 2 ^ 32) &&& 0xFFFFF000) = buf := by
        rw [← hbuf, w32_w32_comm _ _ _ _ _ (show (0x218:Nat) + 4 ≤ 0x21c ∨ 0x21c + 4 ≤ 0x218 by omega), w32_absorb]
      have c5 : writeU32le buf 0x21c (initRdSize % 2 ^ 32) = buf := by
        rw [← hbuf, w32_absorb]
      simp only [patchKernelData]
      rw [if_neg (show ¬(buf.length < 0x1000) by omega)]
      rw [h206, h207, h211, or80_mod_two, ← hX]
      simp only [if_neg fcond, if_neg fnlt2, if_pos h512, if_pos f513, if_pos h514,
        if_neg hiz, if_neg fxn]
      rw [byteAt_set_ne _ _ (by omega), h211, or80_or80]
      rw [readU16le_stage3_0x236, readU32le_stage3_0x22c, r236, r22c]
      rw [← hmsb, ← hlm, ← hb4g, ← hm0, ← hM2, if_neg hbig]
      rw [c0, c1, c2, c3, c4, c5]

theorem claim_C8_witness :
    patchKernelData kdWPatched 0 2048 0x28000 = .ok kdWPatched :=
  claim_C8 kdW 0 2048 0x28000 kdWPatched (by
    have hb206 : byteAt kdW 0x206 = 0 := by
      simp only [kdW]; exact byteAt_replicate_zero _ _
    have hb207 : byteAt kdW 0x207 = 0 := by
      simp only [kdW]; exact byteAt_replicate_zero _ _
    have hlen : ¬(kdW.length < 0x1000) := by
      simp only [kdW, List.length_replicate]; omega
    simp only [patchKernelData]
    rw [if_neg hlen, hb206, hb207]
    norm_num
    simp only [kdWPatched])

theorem claim_C7_witness :
    ∃ buf, patchKernelData kdC7 10485760 4096 0x28000 = .ok buf ∧
      readU32le buf 0x218 = (0x7FFD7FFF - 10 * 1048576) &&& 0xFFFFF000 ∧
      readU32le buf 0x21C = 10 * 1048576 :=
  claim_C7 kdC7
    (by simp only [kdC7, List.length_set, List.length_replicate]; omega)
    (by
      simp only [kdC7]
      rw [byteAt_set_ne _ _ (by omega), byteAt_set_ne _ _ (by omega),
        byteAt_set_lt _ _ (by simp only [List.length_replicate]; omega)])
    (by
      simp only [kdC7]
      rw [byteAt_set_ne _ _ (by omega),
        byteAt_set_lt _ _
          (by simp only [List.length_set, List.length_replicate]; omega)])
    (by
      have h6 : byteAt kdC7 0x236 = 0x40 := by
        simp only [kdC7]
        rw [byteAt_set_lt _ _
          (by simp only [List.length_set, List.length_replicate]; omega)]
      have h7 : byteAt kdC7 0x237 = 0 := by
        simp only [kdC7]
        rw [byteAt_set_ne _ _ (by omega), byteAt_set_ne _ _ (by omega),
          byteAt_set_ne _ _ (by omega), byteAt_replicate_zero]
      simp only [readU16le, h6, h7]
      decide)

end ReproduceMr
